import Mathlib

/-!
Verification of the showroom-camera controller (`showroomCamera.ts`).

The development shallowly embeds the camera state machine: 3-vectors over the
reals, the per-frame cooperative coroutine scheduler (one resumable task,
starting a new one cancels the old), the four public state operations, the
transition interpolation loops, the zoom-drive coroutine, and the passthrough
mouse-wheel setter.  External collaborators (the Babylon.js trajectory node,
the arc-rotate camera's internally derived world transform, and the scene's
animation-speed factor) are supplied through an environment record, exactly at
the boundary where the source reads them.
-/

noncomputable section

namespace Showroom

/-- A 3-component vector with real coordinates, standing in for
Babylon's `Vector3`. -/
structure Vec3 where
  x : ℝ
  y : ℝ
  z : ℝ

instance : Zero Vec3 := ⟨⟨0, 0, 0⟩⟩

instance : Add Vec3 := ⟨fun a b => ⟨a.x + b.x, a.y + b.y, a.z + b.z⟩⟩

instance : Sub Vec3 := ⟨fun a b => ⟨a.x - b.x, a.y - b.y, a.z - b.z⟩⟩

instance : SMul ℝ Vec3 := ⟨fun c v => ⟨c * v.x, c * v.y, c * v.z⟩⟩

/-- Dot product (`Vector3.Dot`). -/
def Vec3.dot (a b : Vec3) : ℝ := a.x * b.x + a.y * b.y + a.z * b.z

/-- Cross product (`Vector3.CrossToRef`; Babylon's left-to-right convention
`a × b`). -/
def Vec3.cross (a b : Vec3) : Vec3 :=
  ⟨a.y * b.z - a.z * b.y, a.z * b.x - a.x * b.z, a.x * b.y - a.y * b.x⟩

/-- Euclidean length (`Vector3.length`). -/
def Vec3.norm (v : Vec3) : ℝ := Real.sqrt (v.dot v)

/-- Babylon's `Vector3.normalize`: a vector of zero length is returned
unchanged, otherwise the vector is scaled by the inverse of its length. -/
def Vec3.normalize (v : Vec3) : Vec3 :=
  if v.norm = 0 then v else v.norm⁻¹ • v

/-- `Vector3.LerpToRef`: `a + t · (b − a)`. -/
def Vec3.lerp (a b : Vec3) (t : ℝ) : Vec3 := a + t • (b - a)

/-- `Vector3.Distance`. -/
def Vec3.dist (a b : Vec3) : ℝ := (a - b).norm

/-- JavaScript's `Math.round` (round half toward positive infinity). -/
def jsRound (r : ℝ) : ℤ := ⌊r + 1 / 2⌋

/-- The second (`m[4..6]`), third (`m[8..10]`) and translation (`m[12..14]`)
basis rows of the arc-rotate camera's live world matrix — exactly the
components `_getArcRotateCameraPoseComponentsToRef` decomposes. -/
structure ArcMat where
  posCol : Vec3
  upCol : Vec3
  fwdCol : Vec3

/-- IShowroomCameraMatchmoveState.  The `matchmoveTarget` trajectory node is an
external collaborator; its per-tick samples live in `Env`, so the state record
keeps only the optional focus depth. -/
structure MmState where
  focusDepth : Option ℝ

/-- IShowroomCameraArcRotateState. -/
structure ArcState where
  startingPosition : Vec3
  target : Vec3
  lowerRadiusLimit : Option ℝ
  upperRadiusLimit : Option ℝ
  wheelDeltaPercentage : Option ℝ

/-- ShowroomCameraState. -/
inductive Behavior where
  | matchmove
  | arcRotate
deriving DecidableEq

/-- Which scene camera is active (`scene.setActiveCameraByName`). -/
inductive ActiveCam where
  | showroomCam
  | showroomArcCam
deriving DecidableEq

/-- The rig transform's rotation.  The source only ever writes it by copying
the trajectory's `absoluteRotationQuaternion` (`.ofTraj k`, the sample taken
at tick `k`) or by `Quaternion.FromLookDirectionRHToRef f u` (`.lookRH f u`);
we record the constructor and its arguments rather than quaternion
components. -/
inductive CamRot where
  | lookRH (forward up : Vec3)
  | ofTraj (k : ℕ)

/-- External collaborators, read at the boundary: the trajectory node's
per-tick absolute position / forward / up samples, the scene's animation
speed factor (`scene.getAnimationRatio()`), and the world matrix the
arc-rotate camera internally derives after being posed at a position and
target (the source reads it back, it is never computed by the repository
code). -/
structure Env where
  trajPos : ℕ → Vec3
  trajForward : ℕ → Vec3
  trajUp : ℕ → Vec3
  speedFactor : ℝ
  arcDerivedMat : Vec3 → Vec3 → ArcMat

/-- `ANIMATION_FRAMES = Math.round(seconds * 60 / Math.max(getAnimationRatio(), 1))`. -/
def animFrames (env : Env) (seconds : ℝ) : ℤ :=
  jsRound (seconds * 60 / max env.speedFactor 1)

/-- The matchmove focus point: trajectory position plus `focusDepth ?? 1`
times the trajectory forward (`scaleAndAddToRef`). -/
def mmFocus (env : Env) (st : MmState) (k : ℕ) : Vec3 :=
  env.trajPos k + (st.focusDepth.getD 1) • env.trajForward k

/-- `TransformNode.up` of the rig: for a look rotation built from an
orthonormal forward/up pair this is the up vector that was passed in, and for
a rotation copied from the trajectory it is the trajectory's up sample. -/
def upOf (env : Env) : CamRot → Vec3
  | .lookRH _ u => u
  | .ofTraj k => env.trajUp k

/-- Default upper radius limit: `state.upperRadiusLimit ?? 2 * Vector3.Distance(startingPosition, target)`. -/
def resolvedUpper (st : ArcState) : ℝ :=
  st.upperRadiusLimit.getD (2 * Vec3.dist st.startingPosition st.target)

/-- Default lower radius limit: `state.lowerRadiusLimit ?? 0.1 *` the (already
resolved) upper radius limit. -/
def resolvedLower (st : ArcState) : ℝ :=
  st.lowerRadiusLimit.getD ((1 / 10) * resolvedUpper st)

/-- Default wheel delta percentage (`?? 0.01`). -/
def resolvedWheel (st : ArcState) : ℝ :=
  st.wheelDeltaPercentage.getD (1 / 100)

/-- Captured data of an in-flight transition coroutine: the starting pose and
focus cloned before the loop, the precomputed frame count, and the next frame
index to execute. -/
structure TransData where
  startPos : Vec3
  startFocus : Vec3
  startUp : Vec3
  frames : ℤ
  next : ℤ

/-- The single resumable per-frame coroutine the observable can hold.  The
`Start` constructors are freshly created generators whose bodies have not run
yet (Babylon steps a coroutine only on notifications), the `Loop`
constructors are generators suspended at the `yield` inside their
interpolation loop. -/
inductive CamTask where
  | mmFollow (st : MmState)
  | animMmStart (st : MmState) (seconds : ℝ)
  | animMmLoop (st : MmState) (d : TransData)
  | animArcStart (st : ArcState) (seconds : ℝ)
  | animArcLoop (st : ArcState) (d : TransData) (destPos destUp destFocus : Vec3)
  | zoomDrive (tgt : ℝ)

/-- The whole mutable state of a `ShowroomCamera` instance together with the
observed state of its two cameras.  `lastT` and `interpSteps` are
instrumentation: `interpSteps` counts executed interpolation-loop bodies, and
`lastT` records the interpolation parameter of the most recent one —
`some t` for a proper `t = frame / ANIMATION_FRAMES`, and `none` when
`ANIMATION_FRAMES = 0`, where the JavaScript source computes `0 / 0 = NaN`
(the rig fields written on such a step hold NaN, which ℝ cannot represent, so
the model leaves them unspecified and no theorem below inspects them). -/
structure Cam where
  transformPos : Vec3
  transformRot : CamRot
  currentFocus : Vec3
  currentState : Behavior
  enableWheelFlag : Bool
  wheelRemoved : Bool
  arcAttached : Bool
  activeCam : ActiveCam
  arcTarget : Vec3
  arcPosition : Vec3
  arcLower : ℝ
  arcUpper : ℝ
  arcRadius : ℝ
  arcWheelDelta : ℝ
  arcMat : ArcMat
  task : Option CamTask
  now : ℕ
  lastT : Option ℝ
  interpSteps : ℕ

/-- `_matchmove`: copy the trajectory's absolute position and rotation into
the rig and derive the focus point at `focusDepth` in front of it. -/
def matchmoveApply (env : Env) (st : MmState) (s : Cam) : Cam :=
  { s with
    transformPos := env.trajPos s.now
    transformRot := .ofTraj s.now
    currentFocus := mmFocus env st s.now }

/-- `_poseArcRotateCamera`: configure target, radius limits, wheel
sensitivity and position (the transient zeroing of the limits is internal to
the call and only the final assignments are observable).  `setTarget`
recomputes the radius from the position-target distance, and the camera
internally derives its world matrix from the new position and target
(`Env.arcDerivedMat`). -/
def poseArc (env : Env) (st : ArcState) (s : Cam) : Cam :=
  { s with
    arcTarget := st.target
    arcPosition := st.startingPosition
    arcUpper := resolvedUpper st
    arcLower := resolvedLower st
    arcWheelDelta := resolvedWheel st
    arcRadius := Vec3.dist st.startingPosition st.target
    arcMat := env.arcDerivedMat st.startingPosition st.target }

/-- `_alignTransformToArcRotateCamera`: write the arc-rotate camera's world
matrix translation into the rig position and build the rig rotation with
`Quaternion.FromLookDirectionRHToRef` from the matrix's third and second
basis rows.  The focus point is read into a temporary only;
`_currentFocusPosition` is not touched. -/
def alignTransformToArcRotateCamera (s : Cam) : Cam :=
  { s with
    transformPos := s.arcMat.posCol
    transformRot := .lookRH s.arcMat.fwdCol s.arcMat.upCol }

/-- The shared head of both animated-transition coroutines: if the camera is
currently in the arc-rotate state, align the rig to the arc-rotate camera,
make the rig camera active, detach the arc-rotate camera's input, and set
`_currentState = Matchmove` — all before any interpolation. -/
def transPrelude (s : Cam) : Cam :=
  if s.currentState = .arcRotate then
    { alignTransformToArcRotateCamera s with
      activeCam := .showroomCam
      arcAttached := false
      currentState := .matchmove }
  else s

/-- `setToMatchmoveState`: detach arc-rotate input, activate the rig camera,
sample the trajectory once, cancel any running coroutine and install the
continuous matchmove-follow coroutine, and set the state to Matchmove. -/
def setToMatchmoveState (env : Env) (st : MmState) (s : Cam) : Cam :=
  { matchmoveApply env st s with
    arcAttached := false
    activeCam := .showroomCam
    task := some (.mmFollow st)
    currentState := .matchmove }

/-- `setToArcRotateState`: cancel any running coroutine (installing none —
the arc-rotate camera drives itself), activate and pose the arc-rotate
camera, attach its input (`attachControl` re-attaches every input of the
camera, then the mouse-wheel input is removed again when the stored flag is
false), set the focus to the target, and set the state to ArcRotate. -/
def setToArcRotateState (env : Env) (st : ArcState) (s : Cam) : Cam :=
  { poseArc env st s with
    activeCam := .showroomArcCam
    arcAttached := true
    wheelRemoved := !s.enableWheelFlag
    currentFocus := st.target
    currentState := .arcRotate
    task := none }

/-- The `enableMouseWheel` setter: store the flag and remove the arc-rotate
camera's mouse-wheel input unconditionally (the `inputs` object always
exists), whatever the value being assigned. -/
def setEnableMouseWheel (v : Bool) (s : Cam) : Cam :=
  { s with enableWheelFlag := v, wheelRemoved := true }

/-- `animateToMatchmoveState`: cancel any running coroutine and install the
freshly created (not yet started) transition coroutine. -/
def animateToMatchmoveState (st : MmState) (seconds : ℝ) (s : Cam) : Cam :=
  { s with task := some (.animMmStart st seconds) }

/-- `animateToArcRotateState`: cancel any running coroutine and install the
freshly created (not yet started) transition coroutine. -/
def animateToArcRotateState (st : ArcState) (seconds : ℝ) (s : Cam) : Cam :=
  { s with task := some (.animArcStart st seconds) }

/-- The target radius of the zoom drive:
`value * (upperRadiusLimit - lowerRadiusLimit) + lowerRadiusLimit`. -/
def zoomTarget (p lower upper : ℝ) : ℝ := p * (upper - lower) + lower

/-- The `arcRotateZoomPercent` setter: only in the arc-rotate state, cancel
any running coroutine and install the zoom-drive coroutine for the computed
target radius. -/
def arcRotateZoomPercent (p : ℝ) (s : Cam) : Cam :=
  if s.currentState = .arcRotate then
    { s with task := some (.zoomDrive (zoomTarget p s.arcLower s.arcUpper)) }
  else s

/-- The pose synthesized by one interpolation-loop body. -/
structure StepPose where
  position : Vec3
  focus : Vec3
  forward : Vec3
  up : Vec3

/-- One interpolation-loop body, shared verbatim by both transition
coroutines: lerp the position and the focus, derive the forward from the
fresh focus-to-position difference and normalize it, lerp the up, then
orthonormalize it against the forward by the double cross product
`(forward × up) × forward` followed by a normalize. -/
def transStep (startPos destPos startFocus destFocus startUp destUp : Vec3) (t : ℝ) :
    StepPose :=
  let position := Vec3.lerp startPos destPos t
  let focus := Vec3.lerp startFocus destFocus t
  let fwd := (focus - position).normalize
  let upL := Vec3.lerp startUp destUp t
  let upO := ((fwd.cross upL).cross fwd).normalize
  ⟨position, focus, fwd, upO⟩

/-- Execute one interpolation-loop body on the camera state: write the
position, the focus point and the look rotation, and bump the
instrumentation.  When `frames = 0` the source computes `t = 0 / 0 = NaN`
and the written fields are NaN; the model records that through
`lastT := none` and leaves the unrepresentable numeric fields as they
were. -/
def applyTransStep (s : Cam) (startPos destPos startFocus destFocus startUp destUp : Vec3)
    (frames frame : ℤ) : Cam :=
  if frames = 0 then
    { s with lastT := none, interpSteps := s.interpSteps + 1 }
  else
    let t : ℝ := (frame : ℝ) / (frames : ℝ)
    let r := transStep startPos destPos startFocus destFocus startUp destUp t
    { s with
      transformPos := r.position
      currentFocus := r.focus
      transformRot := .lookRH r.forward r.up
      lastT := some t
      interpSteps := s.interpSteps + 1 }

/-- Resume the active coroutine for one step (one `notifyObservers` of the
per-frame observable).  A `Start` task runs the generator's body up to its
first suspension: the prelude, the start-pose capture, the frame count, and —
when the loop is entered at all — the `frame = 0` body up to its `yield`;
when `ANIMATION_FRAMES < 0` the loop is skipped entirely and the generator
runs straight through the hand-off.  A `Loop` task either executes the body
for its next frame or, past the last frame, leaves the loop and performs the
hand-off (`setToMatchmoveState` / `setToArcRotateState`).  The zoom drive
checks its convergence condition and either steps the radius or
completes. -/
def stepTask (env : Env) (s : Cam) : Cam :=
  match s.task with
  | none => s
  | some (.mmFollow st) => matchmoveApply env st s
  | some (.animMmStart st seconds) =>
      let s1 := transPrelude s
      let d : TransData :=
        { startPos := s1.transformPos
          startFocus := s1.currentFocus
          startUp := upOf env s1.transformRot
          frames := animFrames env seconds
          next := 1 }
      if 0 ≤ d.frames then
        let s2 := applyTransStep s1 d.startPos (env.trajPos s1.now) d.startFocus
          (mmFocus env st s1.now) d.startUp (env.trajUp s1.now) d.frames 0
        { s2 with task := some (.animMmLoop st d) }
      else
        setToMatchmoveState env st s1
  | some (.animMmLoop st d) =>
      if d.next ≤ d.frames then
        let s2 := applyTransStep s d.startPos (env.trajPos s.now) d.startFocus
          (mmFocus env st s.now) d.startUp (env.trajUp s.now) d.frames d.next
        { s2 with task := some (.animMmLoop st { d with next := d.next + 1 }) }
      else
        setToMatchmoveState env st s
  | some (.animArcStart st seconds) =>
      let s1 := transPrelude s
      let startPos := s1.transformPos
      let startUp := upOf env s1.transformRot
      let startFocus := s1.currentFocus
      let s2 := poseArc env st s1
      let destPos := s2.arcMat.posCol
      let destUp := s2.arcMat.upCol
      let destFocus := s2.arcTarget
      let d : TransData :=
        { startPos := startPos
          startFocus := startFocus
          startUp := startUp
          frames := animFrames env seconds
          next := 1 }
      if 0 ≤ d.frames then
        let s3 := applyTransStep s2 startPos destPos startFocus destFocus startUp destUp
          d.frames 0
        { s3 with task := some (.animArcLoop st d destPos destUp destFocus) }
      else
        setToArcRotateState env st s2
  | some (.animArcLoop st d destPos destUp destFocus) =>
      if d.next ≤ d.frames then
        let s2 := applyTransStep s d.startPos destPos d.startFocus destFocus d.startUp destUp
          d.frames d.next
        { s2 with task := some (.animArcLoop st { d with next := d.next + 1 } destPos destUp destFocus) }
      else
        setToArcRotateState env st s
  | some (.zoomDrive tgt) =>
      if 1 / 1000 < |tgt - s.arcRadius| then
        { s with arcRadius := (1 / 20) * tgt + (19 / 20) * s.arcRadius }
      else
        { s with task := none }

/-- One `onBeforeRender` tick: resume the active coroutine once, then advance
time (the external trajectory keeps animating between ticks). -/
def tick (env : Env) (s : Cam) : Cam :=
  let s1 := stepTask env s
  { s1 with now := s1.now + 1 }

/-- Discriminator: is the task an in-loop arc-rotate transition coroutine? -/
def isArcLoopTask : Option CamTask → Bool
  | some (.animArcLoop _ _ _ _ _) => true
  | _ => false

/-- Discriminator: is the task a not-yet-started arc-rotate transition
coroutine? -/
def isArcStartTask : Option CamTask → Bool
  | some (.animArcStart _ _) => true
  | _ => false

/-- Discriminator: is the task an in-loop matchmove transition coroutine? -/
def isMmLoopTask : Option CamTask → Bool
  | some (.animMmLoop _ _) => true
  | _ => false

/-- Discriminator: is the task the continuous matchmove-follow coroutine? -/
def isMmFollowTask : Option CamTask → Bool
  | some (.mmFollow _) => true
  | _ => false

/-- The captured destination focus of an in-loop arc-rotate transition. -/
def destFocusOf : Option CamTask → Option Vec3
  | some (.animArcLoop _ _ _ _ f) => some f
  | _ => none

/-- A fixed test environment: trajectory parked at the origin facing +Z with
up +Y, speed factor 1, and an arc camera whose derived matrix translates to
the posed position with up +Y and forward +Z. -/
def env0 : Env :=
  { trajPos := fun _ => 0
    trajForward := fun _ => ⟨0, 0, 1⟩
    trajUp := fun _ => ⟨0, 1, 0⟩
    speedFactor := 1
    arcDerivedMat := fun p _ => ⟨p, ⟨0, 1, 0⟩, ⟨0, 0, 1⟩⟩ }

/-- A quiescent camera state: freshly in the matchmove behavior, no coroutine
running. -/
def cam0 : Cam :=
  { transformPos := 0
    transformRot := .ofTraj 0
    currentFocus := 0
    currentState := .matchmove
    enableWheelFlag := true
    wheelRemoved := false
    arcAttached := false
    activeCam := .showroomCam
    arcTarget := 0
    arcPosition := 0
    arcLower := 0
    arcUpper := 0
    arcRadius := 0
    arcWheelDelta := 1 / 100
    arcMat := ⟨0, ⟨0, 1, 0⟩, ⟨0, 0, 1⟩⟩
    task := none
    now := 0
    lastT := some 0
    interpSteps := 0 }

/-- A matchmove state with the default focus depth. -/
def mmSt0 : MmState := { focusDepth := none }

/-- An arc-rotate state with explicit, mutually inconsistent radius limits:
after defaulting, `upperRadiusLimit = 1 < 5 = lowerRadiusLimit`. -/
def arcStBad : ArcState :=
  { startingPosition := 0
    target := ⟨0, 0, 1⟩
    lowerRadiusLimit := some 5
    upperRadiusLimit := some 1
    wheelDeltaPercentage := none }

/-- An arc-rotate state relying on the defaulted radius limits. -/
def arcSt0 : ArcState :=
  { startingPosition := ⟨0, 0, -2⟩
    target := 0
    lowerRadiusLimit := none
    upperRadiusLimit := none
    wheelDeltaPercentage := none }

/-- A mid-transition capture record (frame 30 of 60) used to exercise
in-loop interpolation steps directly. -/
def dMid : TransData :=
  { startPos := 0
    startFocus := 0
    startUp := ⟨0, 1, 0⟩
    frames := 60
    next := 30 }

/-- A camera whose coroutine is suspended mid-loop in a matchmove
transition. -/
def camMidMm : Cam := { cam0 with task := some (.animMmLoop mmSt0 dMid) }

/-- A camera whose coroutine is suspended mid-loop in an arc-rotate
transition with captured destination data. -/
def camMidArc : Cam :=
  { cam0 with task := some (.animArcLoop arcSt0 dMid 0 ⟨0, 1, 0⟩ ⟨0, 0, 5⟩) }

/-- Invariant of a zoom drive toward target radius `tgt` with the radius
limits frozen at `l` and `u`: the limits never change, the radius stays
inside them, and the only coroutine ever installed is the zoom drive itself
(or nothing, once it has converged). -/
def zoomInv (tgt l u : ℝ) (s : Cam) : Prop :=
  s.arcLower = l ∧ s.arcUpper = u ∧ l ≤ s.arcRadius ∧ s.arcRadius ≤ u ∧
    (s.task = some (.zoomDrive tgt) ∨ s.task = none)

/-- A concrete camera resting in the arc-rotate behavior with radius limits
`[0, 1]` and radius 1, ready for a zoom drive. -/
def camZoom : Cam :=
  { cam0 with
    currentState := .arcRotate
    arcLower := 0
    arcUpper := 1
    arcRadius := 1 }

/-- Invariant of a run started by `animateToArcRotateState`: while the
transition coroutine is suspended inside its interpolation loop the state
machine reads Matchmove, and once the coroutine has completed (hand-off done,
no coroutine installed) it reads ArcRotate. -/
def arcTransInv (s : Cam) : Prop :=
  match s.task with
  | some (.animArcStart _ _) => True
  | some (.animArcLoop _ _ _ _ _) => s.currentState = .matchmove
  | none => s.currentState = .arcRotate
  | _ => False

/-- Invariant of a run started by `animateToMatchmoveState`, from the first
tick on: the state machine reads Matchmove both while interpolating and
after hand-off. -/
def mmTransInv (s : Cam) : Prop :=
  match s.task with
  | some (.animMmLoop _ _) => s.currentState = .matchmove
  | some (.mmFollow _) => s.currentState = .matchmove
  | _ => False

@[simp]
theorem Vec3.zero_x : (0 : Vec3).x = 0 := rfl

@[simp]
theorem Vec3.zero_y : (0 : Vec3).y = 0 := rfl

@[simp]
theorem Vec3.zero_z : (0 : Vec3).z = 0 := rfl

@[simp]
theorem Vec3.add_def (a b : Vec3) : a + b = ⟨a.x + b.x, a.y + b.y, a.z + b.z⟩ := rfl

@[simp]
theorem Vec3.sub_def (a b : Vec3) : a - b = ⟨a.x - b.x, a.y - b.y, a.z - b.z⟩ := rfl

@[simp]
theorem Vec3.smul_def (c : ℝ) (v : Vec3) : c • v = ⟨c * v.x, c * v.y, c * v.z⟩ := rfl

@[simp]
theorem Vec3.lerp_zero (a b : Vec3) : Vec3.lerp a b 0 = a := by
  simp [Vec3.lerp]

@[simp]
theorem Vec3.lerp_one (a b : Vec3) : Vec3.lerp a b 1 = b := by
  simp [Vec3.lerp]

theorem Vec3.zero_def : (0 : Vec3) = ⟨0, 0, 0⟩ := rfl

theorem Vec3.mk_eq_zero (x y z : ℝ) :
    (⟨x, y, z⟩ : Vec3) = 0 ↔ x = 0 ∧ y = 0 ∧ z = 0 := by
  rw [Vec3.zero_def, Vec3.mk.injEq]

theorem Vec3.sub_eq_zero_iff (a b : Vec3) : a - b = 0 ↔ a = b := by
  obtain ⟨ax, ay, az⟩ := a
  obtain ⟨bx, by', bz⟩ := b
  simp [Vec3.sub_def, Vec3.mk_eq_zero, Vec3.mk.injEq, sub_eq_zero]

theorem Vec3.one_smul_self (v : Vec3) : (1 : ℝ) • v = v := by
  simp

theorem Vec3.smul_smul_self (c d : ℝ) (v : Vec3) : c • (d • v) = (c * d) • v := by
  simp [mul_assoc]

theorem Vec3.dot_self_nonneg (v : Vec3) : 0 ≤ v.dot v := by
  unfold Vec3.dot
  nlinarith [sq_nonneg v.x, sq_nonneg v.y, sq_nonneg v.z]

theorem Vec3.dot_self_eq_zero (v : Vec3) : v.dot v = 0 ↔ v = 0 := by
  constructor
  · intro h
    unfold Vec3.dot at h
    have hx : v.x * v.x = 0 := by nlinarith [sq_nonneg v.y, sq_nonneg v.z]
    have hy : v.y * v.y = 0 := by nlinarith [sq_nonneg v.x, sq_nonneg v.z]
    have hz : v.z * v.z = 0 := by nlinarith [sq_nonneg v.x, sq_nonneg v.y]
    obtain ⟨x, y, z⟩ := v
    rw [Vec3.mk_eq_zero]
    exact ⟨mul_self_eq_zero.mp hx, mul_self_eq_zero.mp hy, mul_self_eq_zero.mp hz⟩
  · rintro rfl
    unfold Vec3.dot
    norm_num

theorem Vec3.norm_eq_zero_iff (v : Vec3) : v.norm = 0 ↔ v = 0 := by
  unfold Vec3.norm
  rw [Real.sqrt_eq_zero (Vec3.dot_self_nonneg v)]
  exact Vec3.dot_self_eq_zero v

theorem Vec3.norm_nonneg (v : Vec3) : 0 ≤ v.norm := Real.sqrt_nonneg _

theorem Vec3.norm_pos (v : Vec3) (h : v ≠ 0) : 0 < v.norm :=
  lt_of_le_of_ne (Vec3.norm_nonneg v) (fun hc => h ((Vec3.norm_eq_zero_iff v).mp hc.symm))

theorem Vec3.dot_smul_right (c : ℝ) (a b : Vec3) : a.dot (c • b) = c * a.dot b := by
  obtain ⟨ax, ay, az⟩ := a
  obtain ⟨bx, by', bz⟩ := b
  simp [Vec3.dot]
  ring

theorem Vec3.norm_smul (c : ℝ) (v : Vec3) : (c • v).norm = |c| * v.norm := by
  unfold Vec3.norm
  have h : (c • v).dot (c • v) = c ^ 2 * v.dot v := by
    obtain ⟨x, y, z⟩ := v
    simp [Vec3.dot]
    ring
  rw [h, Real.sqrt_mul (sq_nonneg c), Real.sqrt_sq_eq_abs]

theorem Vec3.norm_normalize (v : Vec3) (h : v ≠ 0) : v.normalize.norm = 1 := by
  unfold Vec3.normalize
  have hn : v.norm ≠ 0 := fun hc => h ((Vec3.norm_eq_zero_iff v).mp hc)
  rw [if_neg hn, Vec3.norm_smul, abs_of_pos (inv_pos.mpr (Vec3.norm_pos v h)),
    inv_mul_cancel₀ hn]

theorem Vec3.normalize_eq (v : Vec3) (h : v ≠ 0) : v.normalize = v.norm⁻¹ • v := by
  unfold Vec3.normalize
  rw [if_neg (fun hc => h ((Vec3.norm_eq_zero_iff v).mp hc))]

theorem Vec3.dot_self_of_norm_one (v : Vec3) (h : v.norm = 1) : v.dot v = 1 := by
  have := Real.sq_sqrt (Vec3.dot_self_nonneg v)
  unfold Vec3.norm at h
  rw [h] at this
  simpa using this.symm

theorem Vec3.dot_cross_self (f r : Vec3) : f.dot (r.cross f) = 0 := by
  obtain ⟨fx, fy, fz⟩ := f
  obtain ⟨rx, ry, rz⟩ := r
  simp [Vec3.dot, Vec3.cross]
  ring

theorem Vec3.cross_cross_eq (f u : Vec3) :
    (f.cross u).cross f = (f.dot f) • u - (u.dot f) • f := by
  obtain ⟨fx, fy, fz⟩ := f
  obtain ⟨ux, uy, uz⟩ := u
  simp [Vec3.dot, Vec3.cross, Vec3.mk.injEq]
  refine ⟨by ring, by ring, by ring⟩

theorem Vec3.cross_cross_ne_zero (f u : Vec3) (hf : f.dot f = 1)
    (hpar : ∀ c : ℝ, u ≠ c • f) : (f.cross u).cross f ≠ 0 := by
  intro h0
  rw [Vec3.cross_cross_eq, hf, Vec3.one_smul_self, Vec3.sub_eq_zero_iff] at h0
  exact hpar (u.dot f) h0

theorem Vec3.dot_normalize_right (f w : Vec3) (h : f.dot w = 0) :
    f.dot w.normalize = 0 := by
  unfold Vec3.normalize
  split
  · exact h
  · rw [Vec3.dot_smul_right, h, mul_zero]

theorem jsRound_eq (r : ℝ) (n : ℤ) (h₁ : (n : ℝ) ≤ r + 1 / 2) (h₂ : r + 1 / 2 < n + 1) :
    jsRound r = n := by
  rw [jsRound, Int.floor_eq_iff]
  constructor
  · exact h₁
  · exact h₂

theorem animFrames_env0 (sec : ℝ) : animFrames env0 sec = jsRound (sec * 60) := by
  simp [animFrames, env0]

theorem animFrames_env0_one : animFrames env0 1 = 60 := by
  rw [animFrames_env0]
  apply jsRound_eq <;> norm_num

theorem animFrames_env0_four : animFrames env0 4 = 240 := by
  rw [animFrames_env0]
  apply jsRound_eq <;> norm_num

theorem animFrames_env0_tiny : animFrames env0 (1 / 200) = 0 := by
  rw [animFrames_env0]
  apply jsRound_eq <;> norm_num

theorem animFrames_env0_zero : animFrames env0 0 = 0 := by
  rw [animFrames_env0]
  apply jsRound_eq <;> norm_num

theorem animFrames_env0_negOne : animFrames env0 (-1) = -60 := by
  rw [animFrames_env0]
  apply jsRound_eq <;> norm_num

theorem applyTransStep_currentState (s : Cam) (a b c d e f : Vec3) (g h : ℤ) :
    (applyTransStep s a b c d e f g h).currentState = s.currentState := by
  unfold applyTransStep
  split <;> rfl

theorem applyTransStep_task (s : Cam) (a b c d e f : Vec3) (g h : ℤ) :
    (applyTransStep s a b c d e f g h).task = s.task := by
  unfold applyTransStep
  split <;> rfl

theorem applyTransStep_interpSteps (s : Cam) (a b c d e f : Vec3) (g h : ℤ) :
    (applyTransStep s a b c d e f g h).interpSteps = s.interpSteps + 1 := by
  unfold applyTransStep
  split <;> rfl

theorem applyTransStep_now (s : Cam) (a b c d e f : Vec3) (g h : ℤ) :
    (applyTransStep s a b c d e f g h).now = s.now := by
  unfold applyTransStep
  split <;> rfl

theorem applyTransStep_arcAttached (s : Cam) (a b c d e f : Vec3) (g h : ℤ) :
    (applyTransStep s a b c d e f g h).arcAttached = s.arcAttached := by
  unfold applyTransStep
  split <;> rfl

theorem poseArc_currentState (env : Env) (st : ArcState) (s : Cam) :
    (poseArc env st s).currentState = s.currentState := rfl

theorem poseArc_now (env : Env) (st : ArcState) (s : Cam) :
    (poseArc env st s).now = s.now := rfl

theorem poseArc_task (env : Env) (st : ArcState) (s : Cam) :
    (poseArc env st s).task = s.task := rfl

theorem poseArc_interpSteps (env : Env) (st : ArcState) (s : Cam) :
    (poseArc env st s).interpSteps = s.interpSteps := rfl

theorem poseArc_lastT (env : Env) (st : ArcState) (s : Cam) :
    (poseArc env st s).lastT = s.lastT := rfl

theorem poseArc_enableWheelFlag (env : Env) (st : ArcState) (s : Cam) :
    (poseArc env st s).enableWheelFlag = s.enableWheelFlag := rfl

theorem poseArc_transformPos (env : Env) (st : ArcState) (s : Cam) :
    (poseArc env st s).transformPos = s.transformPos := rfl

theorem poseArc_currentFocus (env : Env) (st : ArcState) (s : Cam) :
    (poseArc env st s).currentFocus = s.currentFocus := rfl

theorem poseArc_transformRot (env : Env) (st : ArcState) (s : Cam) :
    (poseArc env st s).transformRot = s.transformRot := rfl

theorem transPrelude_arc (s : Cam) (h : s.currentState = .arcRotate) :
    transPrelude s =
      { alignTransformToArcRotateCamera s with
        activeCam := .showroomCam
        arcAttached := false
        currentState := .matchmove } := by
  unfold transPrelude
  rw [if_pos h]

theorem transPrelude_currentState (s : Cam) : (transPrelude s).currentState = .matchmove := by
  unfold transPrelude
  split
  · rfl
  · rename_i h
    cases hc : s.currentState
    · rfl
    · exact absurd hc h

theorem transPrelude_now (s : Cam) : (transPrelude s).now = s.now := by
  unfold transPrelude
  split <;> rfl

theorem transPrelude_task (s : Cam) : (transPrelude s).task = s.task := by
  unfold transPrelude
  split <;> rfl

theorem transPrelude_interpSteps (s : Cam) : (transPrelude s).interpSteps = s.interpSteps := by
  unfold transPrelude
  split <;> rfl

theorem transPrelude_lastT (s : Cam) : (transPrelude s).lastT = s.lastT := by
  unfold transPrelude
  split <;> rfl

theorem transPrelude_enableWheelFlag (s : Cam) :
    (transPrelude s).enableWheelFlag = s.enableWheelFlag := by
  unfold transPrelude
  split <;> rfl

theorem transPrelude_currentFocus (s : Cam) : (transPrelude s).currentFocus = s.currentFocus := by
  unfold transPrelude
  split <;> rfl

theorem applyTransStep_frames_zero (s : Cam) (a b c d e f : Vec3) (h : ℤ) :
    applyTransStep s a b c d e f 0 h
      = { s with lastT := none, interpSteps := s.interpSteps + 1 } := by
  unfold applyTransStep
  rw [if_pos rfl]

theorem matchmoveApply_now (env : Env) (st : MmState) (s : Cam) :
    (matchmoveApply env st s).now = s.now := rfl

theorem tick_none (env : Env) (s : Cam) (h : s.task = none) :
    tick env s = { s with now := s.now + 1 } := by
  simp only [tick, stepTask, h]

theorem tick_mmFollow (env : Env) (st : MmState) (s : Cam)
    (h : s.task = some (.mmFollow st)) :
    tick env s = { matchmoveApply env st s with now := s.now + 1 } := by
  simp only [tick, stepTask, h]
  rw [matchmoveApply_now]

theorem tick_mmStart (env : Env) (st : MmState) (sec : ℝ) (s : Cam)
    (h : s.task = some (.animMmStart st sec)) (hf : 0 ≤ animFrames env sec) :
    tick env s =
      { applyTransStep (transPrelude s) (transPrelude s).transformPos (env.trajPos s.now)
          (transPrelude s).currentFocus (mmFocus env st s.now)
          (upOf env (transPrelude s).transformRot) (env.trajUp s.now) (animFrames env sec) 0 with
        task := some (.animMmLoop st
          ⟨(transPrelude s).transformPos, (transPrelude s).currentFocus,
            upOf env (transPrelude s).transformRot, animFrames env sec, 1⟩)
        now := s.now + 1 } := by
  simp only [tick, stepTask, h]
  split
  · rw [applyTransStep_now, transPrelude_now]
  · rename_i hc
    exact absurd hf hc

theorem tick_mmStart_neg (env : Env) (st : MmState) (sec : ℝ) (s : Cam)
    (h : s.task = some (.animMmStart st sec)) (hf : animFrames env sec < 0) :
    tick env s = { setToMatchmoveState env st (transPrelude s) with now := s.now + 1 } := by
  simp only [tick, stepTask, h]
  split
  · rename_i hc
    exact absurd hc (not_le.mpr hf)
  · rw [show ∀ s' : Cam, (setToMatchmoveState env st s').now = s'.now from fun _ => rfl,
      transPrelude_now]

theorem tick_mmLoop_cont (env : Env) (st : MmState) (d : TransData) (s : Cam)
    (h : s.task = some (.animMmLoop st d)) (hf : d.next ≤ d.frames) :
    tick env s =
      { applyTransStep s d.startPos (env.trajPos s.now) d.startFocus (mmFocus env st s.now)
          d.startUp (env.trajUp s.now) d.frames d.next with
        task := some (.animMmLoop st { d with next := d.next + 1 })
        now := s.now + 1 } := by
  simp only [tick, stepTask, h]
  split
  · rw [applyTransStep_now]
  · rename_i hc
    exact absurd hf hc

theorem tick_mmLoop_exit (env : Env) (st : MmState) (d : TransData) (s : Cam)
    (h : s.task = some (.animMmLoop st d)) (hf : ¬d.next ≤ d.frames) :
    tick env s = { setToMatchmoveState env st s with now := s.now + 1 } := by
  simp only [tick, stepTask, h]
  split
  · rename_i hc
    exact absurd hc hf
  · rfl

theorem tick_arcStart (env : Env) (st : ArcState) (sec : ℝ) (s : Cam)
    (h : s.task = some (.animArcStart st sec)) (hf : 0 ≤ animFrames env sec) :
    tick env s =
      { applyTransStep (poseArc env st (transPrelude s)) (transPrelude s).transformPos
          (env.arcDerivedMat st.startingPosition st.target).posCol
          (transPrelude s).currentFocus st.target
          (upOf env (transPrelude s).transformRot)
          (env.arcDerivedMat st.startingPosition st.target).upCol
          (animFrames env sec) 0 with
        task := some (.animArcLoop st
          ⟨(transPrelude s).transformPos, (transPrelude s).currentFocus,
            upOf env (transPrelude s).transformRot, animFrames env sec, 1⟩
          (env.arcDerivedMat st.startingPosition st.target).posCol
          (env.arcDerivedMat st.startingPosition st.target).upCol
          st.target)
        now := s.now + 1 } := by
  simp only [tick, stepTask, h]
  split
  · rw [applyTransStep_now, poseArc_now, transPrelude_now]
    rfl
  · rename_i hc
    exact absurd hf hc

theorem tick_arcStart_neg (env : Env) (st : ArcState) (sec : ℝ) (s : Cam)
    (h : s.task = some (.animArcStart st sec)) (hf : animFrames env sec < 0) :
    tick env s =
      { setToArcRotateState env st (poseArc env st (transPrelude s)) with
        now := s.now + 1 } := by
  simp only [tick, stepTask, h]
  split
  · rename_i hc
    exact absurd hc (not_le.mpr hf)
  · rw [show ∀ s' : Cam, (setToArcRotateState env st s').now = s'.now from fun _ => rfl,
      poseArc_now, transPrelude_now]

theorem tick_arcLoop_cont (env : Env) (st : ArcState) (d : TransData)
    (destPos destUp destFocus : Vec3) (s : Cam)
    (h : s.task = some (.animArcLoop st d destPos destUp destFocus)) (hf : d.next ≤ d.frames) :
    tick env s =
      { applyTransStep s d.startPos destPos d.startFocus destFocus d.startUp destUp
          d.frames d.next with
        task := some (.animArcLoop st { d with next := d.next + 1 } destPos destUp destFocus)
        now := s.now + 1 } := by
  simp only [tick, stepTask, h]
  split
  · rw [applyTransStep_now]
  · rename_i hc
    exact absurd hf hc

theorem tick_arcLoop_exit (env : Env) (st : ArcState) (d : TransData)
    (destPos destUp destFocus : Vec3) (s : Cam)
    (h : s.task = some (.animArcLoop st d destPos destUp destFocus)) (hf : ¬d.next ≤ d.frames) :
    tick env s = { setToArcRotateState env st s with now := s.now + 1 } := by
  simp only [tick, stepTask, h]
  split
  · rename_i hc
    exact absurd hc hf
  · rfl

theorem tick_zoom_step (env : Env) (tgt : ℝ) (s : Cam)
    (h : s.task = some (.zoomDrive tgt)) (hf : 1 / 1000 < |tgt - s.arcRadius|) :
    tick env s =
      { s with arcRadius := (1 / 20) * tgt + (19 / 20) * s.arcRadius, now := s.now + 1 } := by
  simp only [tick, stepTask, h]
  split
  · rfl
  · rename_i hc
    exact absurd hf hc

theorem tick_zoom_done (env : Env) (tgt : ℝ) (s : Cam)
    (h : s.task = some (.zoomDrive tgt)) (hf : ¬1 / 1000 < |tgt - s.arcRadius|) :
    tick env s = { s with task := none, now := s.now + 1 } := by
  simp only [tick, stepTask, h]
  split
  · rename_i hc
    exact absurd hc hf
  · rfl

theorem transStep_position (a b c d e f : Vec3) (t : ℝ) :
    (transStep a b c d e f t).position = Vec3.lerp a b t := rfl

theorem transStep_focus (a b c d e f : Vec3) (t : ℝ) :
    (transStep a b c d e f t).focus = Vec3.lerp c d t := rfl

theorem transStep_forward (sP dP sF dF sU dU : Vec3) (t : ℝ) :
    (transStep sP dP sF dF sU dU t).forward
      = ((transStep sP dP sF dF sU dU t).focus
          - (transStep sP dP sF dF sU dU t).position).normalize := rfl

theorem transStep_up (sP dP sF dF sU dU : Vec3) (t : ℝ) :
    (transStep sP dP sF dF sU dU t).up
      = (((transStep sP dP sF dF sU dU t).forward.cross (Vec3.lerp sU dU t)).cross
          (transStep sP dP sF dF sU dU t).forward).normalize := rfl

theorem applyTransStep_ne (s : Cam) (a b c d e f : Vec3) (N j : ℤ) (hN : N ≠ 0) :
    applyTransStep s a b c d e f N j =
      { s with
        transformPos := (transStep a b c d e f ((j : ℝ) / (N : ℝ))).position
        currentFocus := (transStep a b c d e f ((j : ℝ) / (N : ℝ))).focus
        transformRot := .lookRH (transStep a b c d e f ((j : ℝ) / (N : ℝ))).forward
          (transStep a b c d e f ((j : ℝ) / (N : ℝ))).up
        lastT := some ((j : ℝ) / (N : ℝ))
        interpSteps := s.interpSteps + 1 } := by
  unfold applyTransStep
  rw [if_neg hN]

theorem stepTask_now (env : Env) (s : Cam) : (stepTask env s).now = s.now := by
  rcases htask : s.task with _ | (st | ⟨st, sec⟩ | ⟨st, d⟩ | ⟨st, sec⟩ | ⟨st, d, p, u, f⟩ | tgt) <;>
    simp only [stepTask, htask]
  · rfl
  · split
    · rw [applyTransStep_now, transPrelude_now]
    · rw [show ∀ s' : Cam, (setToMatchmoveState env st s').now = s'.now from fun _ => rfl,
        transPrelude_now]
  · split
    · rw [applyTransStep_now]
    · rfl
  · split
    · rw [applyTransStep_now, poseArc_now, transPrelude_now]
    · rw [show ∀ s' : Cam, (setToArcRotateState env st s').now = s'.now from fun _ => rfl,
        poseArc_now, transPrelude_now]
  · split
    · rw [applyTransStep_now]
    · rfl
  · split <;> rfl

theorem tick_now (env : Env) (s : Cam) : (tick env s).now = s.now + 1 := by
  simp only [tick]
  rw [stepTask_now]

theorem iterate_now (env : Env) (k : ℕ) (s : Cam) :
    ((tick env)^[k] s).now = s.now + k := by
  induction k generalizing s with
  | zero => simp
  | succ k ih =>
      rw [Function.iterate_succ_apply, ih, tick_now]
      omega

/-- While an arc-rotate transition coroutine is inside its interpolation
loop, each tick advances the frame index by one and executes exactly one
interpolation step, with the captured start pose and the captured
destination unchanged. -/
theorem arcLoop_run (env : Env) (st : ArcState) (P F U dp du df : Vec3) (N : ℤ) :
    ∀ (k : ℕ), ∀ (j : ℤ) (s : Cam),
      s.task = some (.animArcLoop st ⟨P, F, U, N, j⟩ dp du df) → j + k ≤ N + 1 →
      ((tick env)^[k] s).task = some (.animArcLoop st ⟨P, F, U, N, j + k⟩ dp du df) ∧
      ((tick env)^[k] s).interpSteps = s.interpSteps + k := by
  intro k
  induction k with
  | zero =>
      intro j s htask _
      constructor
      · simpa using htask
      · simp
  | succ k ih =>
      intro j s htask hle
      have hj : j ≤ N := by
        push_cast at hle
        omega
      have hstep := tick_arcLoop_cont env st ⟨P, F, U, N, j⟩ dp du df s htask hj
      have htask1 : (tick env s).task
          = some (.animArcLoop st ⟨P, F, U, N, j + 1⟩ dp du df) := by
        rw [hstep]
      have hsteps1 : (tick env s).interpSteps = s.interpSteps + 1 := by
        rw [hstep]
        exact applyTransStep_interpSteps s P dp F df U du N j
      have hle' : (j + 1) + (k : ℤ) ≤ N + 1 := by
        push_cast at hle ⊢
        omega
      obtain ⟨htask', hsteps'⟩ := ih (j + 1) (tick env s) htask1 hle'
      rw [Function.iterate_succ_apply]
      constructor
      · rw [htask']
        have : j + 1 + (k : ℤ) = j + ((k : ℕ) + 1 : ℕ) := by
          push_cast
          ring
        rw [this]
      · rw [hsteps', hsteps1]
        omega

/-- While a matchmove transition coroutine is inside its interpolation loop,
each tick advances the frame index by one and executes exactly one
interpolation step, with the captured start pose unchanged. -/
theorem mmLoop_run (env : Env) (st : MmState) (P F U : Vec3) (N : ℤ) :
    ∀ (k : ℕ), ∀ (j : ℤ) (s : Cam),
      s.task = some (.animMmLoop st ⟨P, F, U, N, j⟩) → j + k ≤ N + 1 →
      ((tick env)^[k] s).task = some (.animMmLoop st ⟨P, F, U, N, j + k⟩) ∧
      ((tick env)^[k] s).interpSteps = s.interpSteps + k := by
  intro k
  induction k with
  | zero =>
      intro j s htask _
      constructor
      · simpa using htask
      · simp
  | succ k ih =>
      intro j s htask hle
      have hj : j ≤ N := by
        push_cast at hle
        omega
      have hstep := tick_mmLoop_cont env st ⟨P, F, U, N, j⟩ s htask hj
      have htask1 : (tick env s).task = some (.animMmLoop st ⟨P, F, U, N, j + 1⟩) := by
        rw [hstep]
      have hsteps1 : (tick env s).interpSteps = s.interpSteps + 1 := by
        rw [hstep]
        exact applyTransStep_interpSteps s P (env.trajPos s.now) F (mmFocus env st s.now)
          U (env.trajUp s.now) N j
      have hle' : (j + 1) + (k : ℤ) ≤ N + 1 := by
        push_cast at hle ⊢
        omega
      obtain ⟨htask', hsteps'⟩ := ih (j + 1) (tick env s) htask1 hle'
      rw [Function.iterate_succ_apply]
      constructor
      · rw [htask']
        have : j + 1 + (k : ℤ) = j + ((k : ℕ) + 1 : ℕ) := by
          push_cast
          ring
        rw [this]
      · rw [hsteps', hsteps1]
        omega

theorem arcTransInv_tick (env : Env) (s : Cam) (h : arcTransInv s) :
    arcTransInv (tick env s) := by
  unfold arcTransInv at h ⊢
  rcases htask : s.task with _ | (st | ⟨st, sec⟩ | ⟨st, d⟩ | ⟨st, sec⟩ | ⟨st, d, p, u, f⟩ | tgt) <;>
    rw [htask] at h
  · simp only [tick, stepTask, htask]
    exact h
  · simp at h
  · simp at h
  · simp at h
  · by_cases hf : 0 ≤ animFrames env sec
    · simp only [tick, stepTask, htask]
      rw [if_pos hf]
      simp only [applyTransStep_currentState, poseArc_currentState, transPrelude_currentState]
    · simp only [tick, stepTask, htask]
      rw [if_neg hf]
      simp only [setToArcRotateState]
  · by_cases hf : d.next ≤ d.frames
    · simp only [tick, stepTask, htask]
      rw [if_pos hf]
      simp only [applyTransStep_currentState]
      exact h
    · simp only [tick, stepTask, htask]
      rw [if_neg hf]
      simp only [setToArcRotateState]
  · simp at h

theorem mmTransInv_tick (env : Env) (s : Cam) (h : mmTransInv s) :
    mmTransInv (tick env s) := by
  unfold mmTransInv at h ⊢
  rcases htask : s.task with _ | (st | ⟨st, sec⟩ | ⟨st, d⟩ | ⟨st, sec⟩ | ⟨st, d, p, u, f⟩ | tgt) <;>
    rw [htask] at h
  · simp at h
  · simp only [tick, stepTask, htask, matchmoveApply]
    exact h
  · simp at h
  · by_cases hf : d.next ≤ d.frames
    · simp only [tick, stepTask, htask]
      rw [if_pos hf]
      simp only [applyTransStep_currentState]
      exact h
    · simp only [tick, stepTask, htask]
      rw [if_neg hf]
      simp only [setToMatchmoveState, matchmoveApply]
  · simp at h
  · simp at h
  · simp at h

theorem mmTransInv_start (env : Env) (st : MmState) (sec : ℝ) (s : Cam)
    (h : s.task = some (.animMmStart st sec)) : mmTransInv (tick env s) := by
  unfold mmTransInv
  by_cases hf : 0 ≤ animFrames env sec
  · simp only [tick, stepTask, h]
    rw [if_pos hf]
    simp only [applyTransStep_currentState, transPrelude_currentState]
  · simp only [tick, stepTask, h]
    rw [if_neg hf]
    simp only [setToMatchmoveState, matchmoveApply]

theorem mmTransInv_currentState (s : Cam) (h : mmTransInv s) :
    s.currentState = .matchmove := by
  unfold mmTransInv at h
  rcases htask : s.task with _ | (st | ⟨st, sec⟩ | ⟨st, d⟩ | ⟨st, sec⟩ | ⟨st, d, p, u, f⟩ | tgt) <;>
    rw [htask] at h
  · simp at h
  · exact h
  · simp at h
  · exact h
  · simp at h
  · simp at h
  · simp at h

theorem arcTransInv_elim (s : Cam) (h : arcTransInv s) :
    (isArcLoopTask s.task = true → s.currentState = .matchmove) ∧
    (s.task = none → s.currentState = .arcRotate) := by
  unfold arcTransInv at h
  rcases htask : s.task with _ | (st | ⟨st, sec⟩ | ⟨st, d⟩ | ⟨st, sec⟩ | ⟨st, d, p, u, f⟩ | tgt) <;>
    rw [htask] at h
  · exact ⟨fun hh => by simp [isArcLoopTask] at hh, fun _ => h⟩
  · simp at h
  · simp at h
  · simp at h
  · exact ⟨fun hh => by simp [isArcLoopTask] at hh, fun hh => by simp at hh⟩
  · exact ⟨fun _ => h, fun hh => by simp at hh⟩
  · simp at h

/-- Evaluation of the first tick of `animateToArcRotateState arcSt0 1` from
`cam0`: the coroutine enters its interpolation loop and the state machine
reads Matchmove. -/
theorem tick1_arc_eval :
    (tick env0 (animateToArcRotateState arcSt0 1 cam0)).currentState = .matchmove ∧
    isArcLoopTask (tick env0 (animateToArcRotateState arcSt0 1 cam0)).task = true := by
  have hf : (0 : ℤ) ≤ animFrames env0 1 := by
    rw [animFrames_env0_one]
    norm_num
  have htask : (animateToArcRotateState arcSt0 1 cam0).task
      = some (.animArcStart arcSt0 1) := rfl
  constructor
  · simp only [tick, stepTask, htask]
    rw [if_pos hf]
    simp only [applyTransStep_currentState, poseArc_currentState, transPrelude_currentState]
  · simp only [tick, stepTask, htask]
    rw [if_pos hf]
    simp only [isArcLoopTask]

/-- C2 counterexample: one tick after `animateToArcRotateState` is called
from a matchmove state the transition is mid-flight (the coroutine is
suspended inside its interpolation loop), yet `_currentState` is Matchmove,
not the destination behavior ArcRotate. -/
theorem claim_C2_counterexample :
    (tick env0 (animateToArcRotateState arcSt0 1 cam0)).currentState ≠ Behavior.arcRotate ∧
    isArcLoopTask (tick env0 (animateToArcRotateState arcSt0 1 cam0)).task = true := by
  refine ⟨?_, tick1_arc_eval.2⟩
  rw [tick1_arc_eval.1]
  simp

/-- C2 amended: while an animated transition is in flight the controller's
`_currentState` is Matchmove.  For `animateToMatchmoveState` this equals the
destination behavior from the first tick on (through hand-off and beyond);
for `animateToArcRotateState` the state reads Matchmove at every tick at
which the transition coroutine is still interpolating, and reads ArcRotate
once the coroutine has completed its hand-off. -/
theorem claim_C2_amended :
    (∀ (env : Env) (st : MmState) (sec : ℝ) (s : Cam) (n : ℕ), 1 ≤ n →
      ((tick env)^[n] (animateToMatchmoveState st sec s)).currentState = .matchmove) ∧
    (∀ (env : Env) (st : ArcState) (sec : ℝ) (s : Cam) (n : ℕ),
      (isArcLoopTask ((tick env)^[n] (animateToArcRotateState st sec s)).task = true →
        ((tick env)^[n] (animateToArcRotateState st sec s)).currentState = .matchmove) ∧
      (((tick env)^[n] (animateToArcRotateState st sec s)).task = none →
        ((tick env)^[n] (animateToArcRotateState st sec s)).currentState = .arcRotate)) := by
  constructor
  · intro env st sec s n hn
    obtain ⟨k, rfl⟩ : ∃ k, n = k + 1 := ⟨n - 1, by omega⟩
    have hinv : ∀ m : ℕ, mmTransInv ((tick env)^[m + 1] (animateToMatchmoveState st sec s)) := by
      intro m
      induction m with
      | zero =>
          rw [Function.iterate_one]
          exact mmTransInv_start env st sec _ rfl
      | succ m ih =>
          rw [Function.iterate_succ_apply']
          exact mmTransInv_tick env _ ih
    exact mmTransInv_currentState _ (hinv k)
  · intro env st sec s n
    have hinv : ∀ m : ℕ, arcTransInv ((tick env)^[m] (animateToArcRotateState st sec s)) := by
      intro m
      induction m with
      | zero =>
          simp only [Function.iterate_zero, id_eq]
          unfold arcTransInv
          simp [animateToArcRotateState]
      | succ m ih =>
          rw [Function.iterate_succ_apply']
          exact arcTransInv_tick env _ ih
    exact arcTransInv_elim _ (hinv n)

/-- C2 amended, witness: instantiated one tick into each kind of transition
from the concrete quiescent camera. -/
theorem claim_C2_amended_witness :
    ((tick env0)^[1] (animateToMatchmoveState mmSt0 1 cam0)).currentState = .matchmove ∧
    ((tick env0)^[1] (animateToArcRotateState arcSt0 1 cam0)).currentState = .matchmove := by
  constructor
  · exact claim_C2_amended.1 env0 mmSt0 1 cam0 1 le_rfl
  · exact (claim_C2_amended.2 env0 arcSt0 1 cam0 1).1
      (by rw [Function.iterate_one]; exact tick1_arc_eval.2)

/-- C1 counterexample: with `seconds = 0` the transition does not behave as
an instant switch that avoids the degenerate parameter: `ANIMATION_FRAMES`
is 0, the loop still executes its single step `frame = 0`, and that step
evaluates `t = 0 / 0` (recorded as `lastT = none`, NaN in the JavaScript
source) — contradicting that the parameter is never evaluated. -/
theorem claim_C1_counterexample :
    animFrames env0 0 = 0 ∧
    (tick env0 (animateToMatchmoveState mmSt0 0 cam0)).lastT = none ∧
    (tick env0 (animateToMatchmoveState mmSt0 0 cam0)).interpSteps = 1 := by
  have heq := tick_mmStart env0 mmSt0 0 (animateToMatchmoveState mmSt0 0 cam0) rfl
    (le_of_eq animFrames_env0_zero.symm)
  rw [animFrames_env0_zero] at heq
  rw [heq]
  exact ⟨animFrames_env0_zero, rfl, rfl⟩

/-- C1 amended: only a strictly negative frame count skips the loop; the
boundary `ANIMATION_FRAMES = 0` (reached at `seconds = 0`) still runs one
loop step that evaluates `t = 0 / 0`.  Concretely: (1) for a matchmove
destination with `ANIMATION_FRAMES < 0`, the first tick performs the
equivalent of `setToMatchmoveState` with no interpolation step executed;
(2) with `ANIMATION_FRAMES = 0` the first tick evaluates the degenerate
parameter and the second tick performs the hand-off, after which pose,
behavior and task equal an instant switch executed at the hand-off tick;
(3) and (4) are the symmetric statements for an arc-rotate destination,
whose hand-off fields likewise equal the instant switch's (the rig
transform, which `setToArcRotateState` never writes, excepted). -/
theorem claim_C1_amended :
    (∀ (env : Env) (st : MmState) (sec : ℝ) (s : Cam), animFrames env sec < 0 →
      ((tick env (animateToMatchmoveState st sec s)).currentState
          = (setToMatchmoveState env st s).currentState ∧
        (tick env (animateToMatchmoveState st sec s)).task
          = (setToMatchmoveState env st s).task ∧
        (tick env (animateToMatchmoveState st sec s)).transformPos
          = (setToMatchmoveState env st s).transformPos ∧
        (tick env (animateToMatchmoveState st sec s)).transformRot
          = (setToMatchmoveState env st s).transformRot ∧
        (tick env (animateToMatchmoveState st sec s)).currentFocus
          = (setToMatchmoveState env st s).currentFocus ∧
        (tick env (animateToMatchmoveState st sec s)).arcAttached = false ∧
        (tick env (animateToMatchmoveState st sec s)).lastT = s.lastT ∧
        (tick env (animateToMatchmoveState st sec s)).interpSteps = s.interpSteps)) ∧
    (∀ (env : Env) (st : MmState) (sec : ℝ) (s : Cam), animFrames env sec = 0 →
      ((tick env (animateToMatchmoveState st sec s)).lastT = none ∧
        (tick env (tick env (animateToMatchmoveState st sec s))).currentState = .matchmove ∧
        (tick env (tick env (animateToMatchmoveState st sec s))).task
          = some (.mmFollow st) ∧
        (tick env (tick env (animateToMatchmoveState st sec s))).transformPos
          = env.trajPos (s.now + 1) ∧
        (tick env (tick env (animateToMatchmoveState st sec s))).transformRot
          = .ofTraj (s.now + 1) ∧
        (tick env (tick env (animateToMatchmoveState st sec s))).currentFocus
          = mmFocus env st (s.now + 1))) ∧
    (∀ (env : Env) (st : ArcState) (sec : ℝ) (s : Cam), animFrames env sec < 0 →
      ((tick env (animateToArcRotateState st sec s)).currentState = .arcRotate ∧
        (tick env (animateToArcRotateState st sec s)).task = none ∧
        (tick env (animateToArcRotateState st sec s)).arcAttached = true ∧
        (tick env (animateToArcRotateState st sec s)).currentFocus = st.target ∧
        (tick env (animateToArcRotateState st sec s)).arcUpper = resolvedUpper st ∧
        (tick env (animateToArcRotateState st sec s)).arcLower = resolvedLower st ∧
        (tick env (animateToArcRotateState st sec s)).wheelRemoved
          = (setToArcRotateState env st s).wheelRemoved ∧
        (tick env (animateToArcRotateState st sec s)).lastT = s.lastT ∧
        (tick env (animateToArcRotateState st sec s)).interpSteps = s.interpSteps)) ∧
    (∀ (env : Env) (st : ArcState) (sec : ℝ) (s : Cam), animFrames env sec = 0 →
      ((tick env (animateToArcRotateState st sec s)).lastT = none ∧
        (tick env (tick env (animateToArcRotateState st sec s))).currentState = .arcRotate ∧
        (tick env (tick env (animateToArcRotateState st sec s))).task = none ∧
        (tick env (tick env (animateToArcRotateState st sec s))).arcAttached = true ∧
        (tick env (tick env (animateToArcRotateState st sec s))).currentFocus = st.target)) := by
  refine ⟨?_, ?_, ?_, ?_⟩
  · intro env st sec s hneg
    rw [tick_mmStart_neg env st sec _ rfl hneg]
    refine ⟨rfl, rfl, ?_, ?_, ?_, rfl, ?_, ?_⟩ <;>
      simp only [setToMatchmoveState, matchmoveApply, animateToMatchmoveState,
        transPrelude_now, transPrelude_lastT, transPrelude_interpSteps]
  · intro env st sec s h0
    have heq := tick_mmStart env st sec (animateToMatchmoveState st sec s) rfl
      (le_of_eq h0.symm)
    rw [h0] at heq
    rw [heq]
    exact ⟨rfl, rfl, rfl, rfl, rfl, rfl⟩
  · intro env st sec s hneg
    rw [tick_arcStart_neg env st sec _ rfl hneg]
    refine ⟨rfl, rfl, rfl, rfl, rfl, rfl, ?_, ?_, ?_⟩ <;>
      simp only [setToArcRotateState, poseArc, animateToArcRotateState,
        transPrelude_enableWheelFlag, transPrelude_lastT, transPrelude_interpSteps]
  · intro env st sec s h0
    have heq := tick_arcStart env st sec (animateToArcRotateState st sec s) rfl
      (le_of_eq h0.symm)
    rw [h0] at heq
    rw [heq]
    exact ⟨rfl, rfl, rfl, rfl, rfl⟩

/-- C1 amended, witness: the four cases instantiated at the concrete
environment, for `seconds = -1` (frame count −60) and `seconds = 0` (frame
count 0). -/
theorem claim_C1_amended_witness :
    (tick env0 (animateToMatchmoveState mmSt0 (-1) cam0)).task
        = (setToMatchmoveState env0 mmSt0 cam0).task ∧
    (tick env0 (tick env0 (animateToMatchmoveState mmSt0 0 cam0))).transformRot = .ofTraj 1 ∧
    (tick env0 (animateToArcRotateState arcSt0 (-1) cam0)).task = none ∧
    (tick env0 (animateToArcRotateState arcSt0 0 cam0)).lastT = none := by
  have hneg : animFrames env0 (-1) < 0 := by
    rw [animFrames_env0_negOne]
    norm_num
  refine ⟨?_, ?_, ?_, ?_⟩
  · exact (claim_C1_amended.1 env0 mmSt0 (-1) cam0 hneg).2.1
  · exact (claim_C1_amended.2.1 env0 mmSt0 0 cam0 animFrames_env0_zero).2.2.2.2.1
  · exact (claim_C1_amended.2.2.1 env0 arcSt0 (-1) cam0 hneg).2.1
  · exact (claim_C1_amended.2.2.2 env0 arcSt0 0 cam0 animFrames_env0_zero).1

/-- C3 counterexample: for `seconds = 1/200` (a positive duration) at speed
factor 1, `N = round(0.3) = 0` and the loop's single step `frame = 0` does
not use `t = 1` — it evaluates the degenerate `0 / 0` (NaN, recorded as
`lastT = none`) — so the final step neither uses `t = 1` nor lands on the
destination pose. -/
theorem claim_C3_counterexample :
    animFrames env0 (1 / 200) = 0 ∧
    (tick env0 (animateToArcRotateState arcSt0 (1 / 200) cam0)).interpSteps = 1 ∧
    (tick env0 (animateToArcRotateState arcSt0 (1 / 200) cam0)).lastT = none := by
  have heq := tick_arcStart env0 arcSt0 (1 / 200)
    (animateToArcRotateState arcSt0 (1 / 200) cam0) rfl
    (le_of_eq animFrames_env0_tiny.symm)
  rw [animFrames_env0_tiny] at heq
  rw [heq]
  exact ⟨animFrames_env0_tiny, rfl, rfl⟩

/-- C3 amended: for every animated transition whose frame count
`N = round(seconds × 60 / max(animationRatio, 1))` is at least 1, the loop
runs frames 0 through N inclusive — exactly N + 1 interpolation steps before
hand-off — the final step uses `t = 1` and lands exactly on the destination
pose (the posed orbit camera's world-matrix translation and target for an
arc-rotate destination; the live trajectory sample of the hand-off tick for a
matchmove destination), and the hand-off happens on the following tick; with
`seconds = 4` at speed factor 1, `N = 240`, giving exactly 241 steps.  (For
`seconds > 0` with `N = 0` the single executed step instead evaluates the
degenerate `t = 0 / 0`.) -/
theorem claim_C3_amended :
    (∀ (env : Env) (st : ArcState) (sec : ℝ) (s : Cam) (m : ℕ), 1 ≤ m →
      (m : ℤ) = animFrames env sec →
      (((tick env)^[m + 1] (animateToArcRotateState st sec s)).lastT = some 1 ∧
        ((tick env)^[m + 1] (animateToArcRotateState st sec s)).transformPos
          = (env.arcDerivedMat st.startingPosition st.target).posCol ∧
        ((tick env)^[m + 1] (animateToArcRotateState st sec s)).currentFocus = st.target ∧
        ((tick env)^[m + 1] (animateToArcRotateState st sec s)).interpSteps
          = s.interpSteps + (m + 1) ∧
        ((tick env)^[m + 2] (animateToArcRotateState st sec s)).task = none ∧
        ((tick env)^[m + 2] (animateToArcRotateState st sec s)).currentState = .arcRotate ∧
        ((tick env)^[m + 2] (animateToArcRotateState st sec s)).interpSteps
          = s.interpSteps + (m + 1))) ∧
    (∀ (env : Env) (st : MmState) (sec : ℝ) (s : Cam) (m : ℕ), 1 ≤ m →
      (m : ℤ) = animFrames env sec →
      (((tick env)^[m + 1] (animateToMatchmoveState st sec s)).lastT = some 1 ∧
        ((tick env)^[m + 1] (animateToMatchmoveState st sec s)).transformPos
          = env.trajPos (s.now + m) ∧
        ((tick env)^[m + 2] (animateToMatchmoveState st sec s)).task
          = some (.mmFollow st) ∧
        ((tick env)^[m + 2] (animateToMatchmoveState st sec s)).interpSteps
          = s.interpSteps + (m + 1))) ∧
    (∀ env : Env, env.speedFactor = 1 → animFrames env 4 = 240) := by
  refine ⟨?_, ?_, ?_⟩
  · intro env st sec s m h1 hm
    obtain ⟨m', rfl⟩ : ∃ m', m = m' + 1 := ⟨m - 1, by omega⟩
    have hf : 0 ≤ animFrames env sec := by
      rw [← hm]
      exact_mod_cast Nat.zero_le _
    have hN0 : ((m' + 1 : ℕ) : ℤ) ≠ 0 := by
      push_cast
      omega
    have hstep1 := tick_arcStart env st sec (animateToArcRotateState st sec s) rfl hf
    rw [← hm] at hstep1
    set s0 := animateToArcRotateState st sec s with hs0
    set P0 := (transPrelude s0).transformPos with hP0
    set F0 := (transPrelude s0).currentFocus with hF0
    set U0 := upOf env (transPrelude s0).transformRot with hU0
    set dp := (env.arcDerivedMat st.startingPosition st.target).posCol with hdp
    set du := (env.arcDerivedMat st.startingPosition st.target).upCol with hdu
    have htask1 : (tick env s0).task
        = some (.animArcLoop st ⟨P0, F0, U0, ((m' + 1 : ℕ) : ℤ), 1⟩ dp du st.target) := by
      rw [hstep1]
    have hsteps1 : (tick env s0).interpSteps = s.interpSteps + 1 := by
      simp only [hstep1, applyTransStep_interpSteps, poseArc_interpSteps,
        transPrelude_interpSteps]
      rfl
    obtain ⟨htaskm, hstepsm⟩ := arcLoop_run env st P0 F0 U0 dp du st.target
      ((m' + 1 : ℕ) : ℤ) m' 1 (tick env s0) htask1 (by push_cast; omega)
    have hjle : (1 + (m' : ℕ) : ℤ) ≤ ((m' + 1 : ℕ) : ℤ) := by
      push_cast
      omega
    have hstepF := tick_arcLoop_cont env st ⟨P0, F0, U0, ((m' + 1 : ℕ) : ℤ), 1 + (m' : ℕ)⟩
      dp du st.target ((tick env)^[m'] (tick env s0)) htaskm hjle
    have ht1 : (((1 + (m' : ℕ) : ℤ) : ℝ) / (((m' + 1 : ℕ) : ℤ) : ℝ)) = 1 := by
      push_cast
      rw [add_comm 1 (m' : ℝ), div_self (by positivity : ((m' : ℝ) + 1) ≠ 0)]
    have hiterA : (tick env)^[m' + 1 + 1] s0 = tick env ((tick env)^[m'] (tick env s0)) := by
      rw [Function.iterate_succ_apply, Function.iterate_succ_apply']
    have hiterB : (tick env)^[m' + 1 + 2] s0
        = tick env (tick env ((tick env)^[m'] (tick env s0))) := by
      rw [show m' + 1 + 2 = (m' + 1 + 1) + 1 from rfl, Function.iterate_succ_apply', hiterA]
    have hstepsF : (tick env ((tick env)^[m'] (tick env s0))).interpSteps
        = s.interpSteps + (m' + 1 + 1) := by
      simp only [hstepF, applyTransStep_interpSteps]
      rw [hstepsm, hsteps1]
      omega
    have htaskF : (tick env ((tick env)^[m'] (tick env s0))).task
        = some (.animArcLoop st ⟨P0, F0, U0, ((m' + 1 : ℕ) : ℤ), 1 + (m' : ℕ) + 1⟩
            dp du st.target) := by
      rw [hstepF]
    have hnle : ¬(1 + (m' : ℕ) + 1 : ℤ) ≤ ((m' + 1 : ℕ) : ℤ) := by
      push_cast
      omega
    have hstepE := tick_arcLoop_exit env st ⟨P0, F0, U0, ((m' + 1 : ℕ) : ℤ), 1 + (m' : ℕ) + 1⟩
      dp du st.target (tick env ((tick env)^[m'] (tick env s0))) htaskF hnle
    refine ⟨?_, ?_, ?_, ?_, ?_, ?_, ?_⟩
    · rw [hiterA, hstepF, applyTransStep_ne _ _ _ _ _ _ _ _ _ hN0]
      simp only [ht1]
    · rw [hiterA, hstepF, applyTransStep_ne _ _ _ _ _ _ _ _ _ hN0]
      simp only [ht1, transStep_position, Vec3.lerp_one]
    · rw [hiterA, hstepF, applyTransStep_ne _ _ _ _ _ _ _ _ _ hN0]
      simp only [ht1, transStep_focus, Vec3.lerp_one]
    · rw [hiterA, hstepsF]
    · rw [hiterB, hstepE]
      rfl
    · rw [hiterB, hstepE]
      rfl
    · rw [hiterB, hstepE]
      rw [show ∀ s' : Cam, (setToArcRotateState env st s').interpSteps = s'.interpSteps
          from fun _ => rfl]
      rw [hstepsF]
  · intro env st sec s m h1 hm
    obtain ⟨m', rfl⟩ : ∃ m', m = m' + 1 := ⟨m - 1, by omega⟩
    have hf : 0 ≤ animFrames env sec := by
      rw [← hm]
      exact_mod_cast Nat.zero_le _
    have hN0 : ((m' + 1 : ℕ) : ℤ) ≠ 0 := by
      push_cast
      omega
    have hstep1 := tick_mmStart env st sec (animateToMatchmoveState st sec s) rfl hf
    rw [← hm] at hstep1
    set s0 := animateToMatchmoveState st sec s with hs0
    set P0 := (transPrelude s0).transformPos with hP0
    set F0 := (transPrelude s0).currentFocus with hF0
    set U0 := upOf env (transPrelude s0).transformRot with hU0
    have htask1 : (tick env s0).task
        = some (.animMmLoop st ⟨P0, F0, U0, ((m' + 1 : ℕ) : ℤ), 1⟩) := by
      rw [hstep1]
    have hsteps1 : (tick env s0).interpSteps = s.interpSteps + 1 := by
      simp only [hstep1, applyTransStep_interpSteps, transPrelude_interpSteps]
      rfl
    obtain ⟨htaskm, hstepsm⟩ := mmLoop_run env st P0 F0 U0
      ((m' + 1 : ℕ) : ℤ) m' 1 (tick env s0) htask1 (by push_cast; omega)
    have hjle : (1 + (m' : ℕ) : ℤ) ≤ ((m' + 1 : ℕ) : ℤ) := by
      push_cast
      omega
    have hstepF := tick_mmLoop_cont env st ⟨P0, F0, U0, ((m' + 1 : ℕ) : ℤ), 1 + (m' : ℕ)⟩
      ((tick env)^[m'] (tick env s0)) htaskm hjle
    have ht1 : (((1 + (m' : ℕ) : ℤ) : ℝ) / (((m' + 1 : ℕ) : ℤ) : ℝ)) = 1 := by
      push_cast
      rw [add_comm 1 (m' : ℝ), div_self (by positivity : ((m' : ℝ) + 1) ≠ 0)]
    have hnowm : ((tick env)^[m'] (tick env s0)).now = s.now + (m' + 1) := by
      rw [iterate_now, tick_now]
      simp only [hs0, animateToMatchmoveState]
      omega
    have hiterA : (tick env)^[m' + 1 + 1] s0 = tick env ((tick env)^[m'] (tick env s0)) := by
      rw [Function.iterate_succ_apply, Function.iterate_succ_apply']
    have hiterB : (tick env)^[m' + 1 + 2] s0
        = tick env (tick env ((tick env)^[m'] (tick env s0))) := by
      rw [show m' + 1 + 2 = (m' + 1 + 1) + 1 from rfl, Function.iterate_succ_apply', hiterA]
    have hstepsF : (tick env ((tick env)^[m'] (tick env s0))).interpSteps
        = s.interpSteps + (m' + 1 + 1) := by
      simp only [hstepF, applyTransStep_interpSteps]
      rw [hstepsm, hsteps1]
      omega
    have htaskF : (tick env ((tick env)^[m'] (tick env s0))).task
        = some (.animMmLoop st ⟨P0, F0, U0, ((m' + 1 : ℕ) : ℤ), 1 + (m' : ℕ) + 1⟩) := by
      rw [hstepF]
    have hnle : ¬(1 + (m' : ℕ) + 1 : ℤ) ≤ ((m' + 1 : ℕ) : ℤ) := by
      push_cast
      omega
    have hstepE := tick_mmLoop_exit env st ⟨P0, F0, U0, ((m' + 1 : ℕ) : ℤ), 1 + (m' : ℕ) + 1⟩
      (tick env ((tick env)^[m'] (tick env s0))) htaskF hnle
    refine ⟨?_, ?_, ?_, ?_⟩
    · rw [hiterA, hstepF, applyTransStep_ne _ _ _ _ _ _ _ _ _ hN0]
      simp only [ht1]
    · rw [hiterA, hstepF, applyTransStep_ne _ _ _ _ _ _ _ _ _ hN0]
      simp only [ht1, transStep_position, Vec3.lerp_one, hnowm]
    · rw [hiterB, hstepE]
      rfl
    · rw [hiterB, hstepE]
      rw [show ∀ s' : Cam, (setToMatchmoveState env st s').interpSteps = s'.interpSteps
          from fun _ => rfl]
      rw [hstepsF]
  · intro env h
    rw [animFrames, h]
    apply jsRound_eq <;> norm_num

/-- C3 amended, witness: the 241-step scenario (`seconds = 4`, speed factor
1, frames 0..240) instantiated concretely, plus a 61-step matchmove run. -/
theorem claim_C3_amended_witness :
    ((tick env0)^[241] (animateToArcRotateState arcSt0 4 cam0)).lastT = some 1 ∧
    ((tick env0)^[242] (animateToArcRotateState arcSt0 4 cam0)).interpSteps = 241 ∧
    ((tick env0)^[61] (animateToMatchmoveState mmSt0 1 cam0)).lastT = some 1 ∧
    animFrames env0 4 = 240 := by
  have h4 : ((240 : ℕ) : ℤ) = animFrames env0 4 := by
    rw [animFrames_env0_four]
    norm_num
  have h1 : ((60 : ℕ) : ℤ) = animFrames env0 1 := by
    rw [animFrames_env0_one]
    norm_num
  refine ⟨?_, ?_, ?_, ?_⟩
  · exact (claim_C3_amended.1 env0 arcSt0 4 cam0 240 (by norm_num) h4).1
  · exact (claim_C3_amended.1 env0 arcSt0 4 cam0 240 (by norm_num) h4).2.2.2.2.2.2
  · exact (claim_C3_amended.2.1 env0 mmSt0 1 cam0 60 (by norm_num) h1).1
  · exact claim_C3_amended.2.2 env0 rfl

/-- C6: starting an animated transition while the behavior is ArcRotate
aligns the rig to the orbit camera's live world matrix at that moment —
position from the matrix translation, forward and up from its third and
second basis rows (`_alignTransformToArcRotateCamera`), whatever pose user
input has driven the matrix to (the matrix is universally quantified and the
captured pose depends only on it, not on any configured starting position) —
and detaches the orbit camera's input, all on the tick that runs the
coroutine head, before the first interpolation write; the captured transition
start data is exactly that aligned pose together with the preserved current
focus point. -/
theorem claim_C6_handoff_alignment (env : Env) (st : MmState) (st2 : ArcState) (sec : ℝ)
    (s : Cam) (h : 1 ≤ animFrames env sec) :
    (alignTransformToArcRotateCamera s).transformPos = s.arcMat.posCol ∧
    (alignTransformToArcRotateCamera s).transformRot
      = .lookRH s.arcMat.fwdCol s.arcMat.upCol ∧
    ((tick env (animateToMatchmoveState st sec { s with currentState := .arcRotate })).task
      = some (.animMmLoop st
          ⟨s.arcMat.posCol, s.currentFocus, s.arcMat.upCol, animFrames env sec, 1⟩)) ∧
    (tick env (animateToMatchmoveState st sec
        { s with currentState := .arcRotate })).arcAttached = false ∧
    (tick env (animateToMatchmoveState st sec
        { s with currentState := .arcRotate })).currentState = .matchmove ∧
    (tick env (animateToMatchmoveState st sec
        { s with currentState := .arcRotate })).transformPos = s.arcMat.posCol ∧
    ((tick env (animateToArcRotateState st2 sec { s with currentState := .arcRotate })).task
      = some (.animArcLoop st2
          ⟨s.arcMat.posCol, s.currentFocus, s.arcMat.upCol, animFrames env sec, 1⟩
          (env.arcDerivedMat st2.startingPosition st2.target).posCol
          (env.arcDerivedMat st2.startingPosition st2.target).upCol
          st2.target)) ∧
    (tick env (animateToArcRotateState st2 sec
        { s with currentState := .arcRotate })).arcAttached = false := by
  have h0 : (0 : ℤ) ≤ animFrames env sec := le_trans zero_le_one h
  have hN0 : animFrames env sec ≠ 0 := by omega
  have harcM : (animateToMatchmoveState st sec
      { s with currentState := .arcRotate }).currentState = .arcRotate := rfl
  have harcA : (animateToArcRotateState st2 sec
      { s with currentState := .arcRotate }).currentState = .arcRotate := rfl
  have heqM := tick_mmStart env st sec
    (animateToMatchmoveState st sec { s with currentState := .arcRotate }) rfl h0
  rw [transPrelude_arc _ harcM] at heqM
  have heqA := tick_arcStart env st2 sec
    (animateToArcRotateState st2 sec { s with currentState := .arcRotate }) rfl h0
  rw [transPrelude_arc _ harcA] at heqA
  refine ⟨rfl, rfl, ?_, ?_, ?_, ?_, ?_, ?_⟩
  · rw [heqM]
    rfl
  · rw [heqM, applyTransStep_arcAttached]
  · rw [heqM, applyTransStep_currentState]
  · rw [heqM, applyTransStep_ne _ _ _ _ _ _ _ _ _ hN0, transStep_position]
    simp only [Int.cast_zero, zero_div, Vec3.lerp_zero]
    rfl
  · rw [heqA]
    rfl
  · rw [heqA, applyTransStep_arcAttached]
    rfl

/-- C6 witness: one tick of each animated transition started from the
concrete camera forced into the ArcRotate behavior. -/
theorem claim_C6_witness :
    (tick env0 (animateToMatchmoveState mmSt0 1
        { cam0 with currentState := .arcRotate })).arcAttached = false ∧
    (tick env0 (animateToMatchmoveState mmSt0 1
        { cam0 with currentState := .arcRotate })).transformPos = cam0.arcMat.posCol ∧
    (tick env0 (animateToArcRotateState arcSt0 1
        { cam0 with currentState := .arcRotate })).arcAttached = false := by
  have h : (1 : ℤ) ≤ animFrames env0 1 := by
    rw [animFrames_env0_one]
    norm_num
  exact ⟨(claim_C6_handoff_alignment env0 mmSt0 arcSt0 1 cam0 h).2.2.2.1,
    (claim_C6_handoff_alignment env0 mmSt0 arcSt0 1 cam0 h).2.2.2.2.2.1,
    (claim_C6_handoff_alignment env0 mmSt0 arcSt0 1 cam0 h).2.2.2.2.2.2.2⟩

/-- C8: during a matchmove transition each in-loop tick computes the focus
written to the controller by blending toward a destination focus recomputed
at that very tick from the live trajectory sample
(`trajPos now + focusDepth · trajForward now`); during an arc-rotate
transition the first tick captures the destination focus as the posed orbit
camera's target, exactly once, and every later in-loop tick blends toward
that same captured value, which it carries along unchanged. -/
theorem claim_C8_focus :
    (∀ (env : Env) (s : Cam) (st : MmState) (d : TransData),
      s.task = some (.animMmLoop st d) → d.next ≤ d.frames → d.frames ≠ 0 →
      (tick env s).currentFocus
        = Vec3.lerp d.startFocus (mmFocus env st s.now)
            ((d.next : ℝ) / (d.frames : ℝ))) ∧
    (∀ (env : Env) (st : ArcState) (sec : ℝ) (s : Cam), 0 ≤ animFrames env sec →
      destFocusOf (tick env (animateToArcRotateState st sec s)).task = some st.target) ∧
    (∀ (env : Env) (s : Cam) (st : ArcState) (d : TransData) (dp du df : Vec3),
      s.task = some (.animArcLoop st d dp du df) → d.next ≤ d.frames →
      destFocusOf (tick env s).task = some df ∧
      (d.frames ≠ 0 →
        (tick env s).currentFocus
          = Vec3.lerp d.startFocus df ((d.next : ℝ) / (d.frames : ℝ)))) := by
  refine ⟨?_, ?_, ?_⟩
  · intro env s st d h hle hne
    rw [tick_mmLoop_cont env st d s h hle, applyTransStep_ne _ _ _ _ _ _ _ _ _ hne,
      transStep_focus]
  · intro env st sec s hf
    rw [tick_arcStart env st sec _ rfl hf]
    rfl
  · intro env s st d dp du df h hle
    constructor
    · rw [tick_arcLoop_cont env st d dp du df s h hle]
      rfl
    · intro hne
      rw [tick_arcLoop_cont env st d dp du df s h hle,
        applyTransStep_ne _ _ _ _ _ _ _ _ _ hne, transStep_focus]

/-- C8 witness: the three parts instantiated on concrete mid-loop states and
on the first tick of a concrete arc-rotate transition. -/
theorem claim_C8_focus_witness :
    (tick env0 camMidMm).currentFocus
      = Vec3.lerp dMid.startFocus (mmFocus env0 mmSt0 camMidMm.now)
          ((dMid.next : ℝ) / (dMid.frames : ℝ)) ∧
    destFocusOf (tick env0 (animateToArcRotateState arcSt0 1 cam0)).task
      = some arcSt0.target ∧
    destFocusOf (tick env0 camMidArc).task = some ⟨0, 0, 5⟩ := by
  refine ⟨?_, ?_, ?_⟩
  · exact claim_C8_focus.1 env0 camMidMm mmSt0 dMid rfl (by decide) (by decide)
  · exact claim_C8_focus.2.1 env0 arcSt0 1 cam0
      (by rw [animFrames_env0_one]; norm_num)
  · exact (claim_C8_focus.2.2 env0 camMidArc arcSt0 dMid 0 ⟨0, 1, 0⟩ ⟨0, 0, 5⟩ rfl
      (by decide)).1

theorem zoom_none_stable (env : Env) : ∀ (n : ℕ) (s : Cam), s.task = none →
    ((tick env)^[n] s).task = none ∧ ((tick env)^[n] s).arcRadius = s.arcRadius := by
  intro n
  induction n with
  | zero => exact fun s h => ⟨h, rfl⟩
  | succ n ih =>
      intro s h
      rw [Function.iterate_succ_apply, tick_none env s h]
      exact ih _ h

theorem zoomInv_tick (env : Env) (tgt l u : ℝ) (s : Cam) (hl : l ≤ tgt) (hu : tgt ≤ u)
    (h : zoomInv tgt l u s) : zoomInv tgt l u (tick env s) := by
  obtain ⟨h1, h2, h3, h4, htask | htask⟩ := h
  · by_cases hc : 1 / 1000 < |tgt - s.arcRadius|
    · rw [tick_zoom_step env tgt s htask hc]
      refine ⟨h1, h2, ?_, ?_, Or.inl htask⟩
      · show l ≤ (1 / 20) * tgt + (19 / 20) * s.arcRadius
        nlinarith
      · show (1 / 20) * tgt + (19 / 20) * s.arcRadius ≤ u
        nlinarith
    · rw [tick_zoom_done env tgt s htask hc]
      exact ⟨h1, h2, h3, h4, Or.inr rfl⟩
  · rw [tick_none env s htask]
    exact ⟨h1, h2, h3, h4, Or.inr htask⟩

theorem zoomInv_iterate (env : Env) (tgt l u : ℝ) (hl : l ≤ tgt) (hu : tgt ≤ u) :
    ∀ (n : ℕ) (s : Cam), zoomInv tgt l u s → zoomInv tgt l u ((tick env)^[n] s) := by
  intro n
  induction n with
  | zero => exact fun s h => h
  | succ n ih =>
      intro s h
      rw [Function.iterate_succ_apply]
      exact ih _ (zoomInv_tick env tgt l u s hl hu h)

/-- While the zoom drive stays installed, the distance to the target radius
decays geometrically with ratio 19/20 per executed tick. -/
theorem zoom_gap (env : Env) (tgt : ℝ) :
    ∀ (n : ℕ) (s : Cam), s.task = some (.zoomDrive tgt) ∨ s.task = none →
      ((tick env)^[n] s).task = some (.zoomDrive tgt) →
      |tgt - ((tick env)^[n] s).arcRadius| = (19 / 20) ^ n * |tgt - s.arcRadius| := by
  intro n
  induction n with
  | zero =>
      intro s _ _
      simp
  | succ n ih =>
      intro s hor halive
      rw [Function.iterate_succ_apply] at halive ⊢
      rcases hor with htask | htask
      · by_cases hc : 1 / 1000 < |tgt - s.arcRadius|
        · have hstep := tick_zoom_step env tgt s htask hc
          have hgap : |tgt - (tick env s).arcRadius| = (19 / 20) * |tgt - s.arcRadius| := by
            rw [hstep]
            show |tgt - ((1 / 20) * tgt + (19 / 20) * s.arcRadius)| = _
            rw [show tgt - ((1 / 20) * tgt + (19 / 20) * s.arcRadius)
                = (19 / 20) * (tgt - s.arcRadius) by ring]
            rw [abs_mul, abs_of_pos (by norm_num : (0 : ℝ) < 19 / 20)]
          have htask1 : (tick env s).task = some (.zoomDrive tgt) := by
            rw [hstep]
            exact htask
          rw [ih (tick env s) (Or.inl htask1) halive, hgap]
          ring
        · have hstep := tick_zoom_done env tgt s htask hc
          have : ((tick env)^[n] (tick env s)).task = none := by
            refine (zoom_none_stable env n (tick env s) ?_).1
            rw [hstep]
          rw [this] at halive
          exact absurd halive (by simp)
      · have : ((tick env)^[n] (tick env s)).task = none := by
          refine (zoom_none_stable env n (tick env s) ?_).1
          rw [tick_none env s htask]
          exact htask
        rw [this] at halive
        exact absurd halive (by simp)

/-- C9: a zoom drive started by `arcRotateZoomPercent := p` with `p ∈ [0, 1]`
while the behavior is ArcRotate and the radius inside the configured limits
keeps the radius inside `[lowerRadiusLimit, upperRadiusLimit]` at every
subsequent tick and terminates: after finitely many ticks the coroutine has
converged (|targetRadius − radius| ≤ 0.001) and uninstalled itself. -/
theorem claim_C9_zoom (env : Env) (p : ℝ) (s : Cam)
    (h1 : s.currentState = .arcRotate)
    (h2 : s.arcLower ≤ s.arcRadius) (h3 : s.arcRadius ≤ s.arcUpper)
    (h4 : 0 ≤ p) (h5 : p ≤ 1) :
    (∀ n : ℕ,
      s.arcLower ≤ ((tick env)^[n] (arcRotateZoomPercent p s)).arcRadius ∧
      ((tick env)^[n] (arcRotateZoomPercent p s)).arcRadius ≤ s.arcUpper) ∧
    (∃ n : ℕ, ((tick env)^[n] (arcRotateZoomPercent p s)).task = none) := by
  have hlu : s.arcLower ≤ s.arcUpper := le_trans h2 h3
  have hzoom : arcRotateZoomPercent p s
      = { s with task := some (.zoomDrive (zoomTarget p s.arcLower s.arcUpper)) } := by
    unfold arcRotateZoomPercent
    rw [if_pos h1]
  have htl : s.arcLower ≤ zoomTarget p s.arcLower s.arcUpper := by
    unfold zoomTarget
    nlinarith
  have htu : zoomTarget p s.arcLower s.arcUpper ≤ s.arcUpper := by
    unfold zoomTarget
    nlinarith
  have hinv0 : zoomInv (zoomTarget p s.arcLower s.arcUpper) s.arcLower s.arcUpper
      (arcRotateZoomPercent p s) := by
    rw [hzoom]
    exact ⟨rfl, rfl, h2, h3, Or.inl rfl⟩
  constructor
  · intro n
    have := zoomInv_iterate env _ _ _ htl htu n _ hinv0
    exact ⟨this.2.2.1, this.2.2.2.1⟩
  · set tgt := zoomTarget p s.arcLower s.arcUpper with htgt
    obtain ⟨n0, hn0⟩ : ∃ n : ℕ, (19 / 20 : ℝ) ^ n * |tgt - s.arcRadius| < 1 / 1000 := by
      rcases eq_or_lt_of_le (abs_nonneg (tgt - s.arcRadius)) with hg | hg
      · exact ⟨0, by rw [← hg]; norm_num⟩
      · obtain ⟨n, hn⟩ := exists_pow_lt_of_lt_one
          (div_pos (by norm_num : (0 : ℝ) < 1 / 1000) hg) (by norm_num : (19 / 20 : ℝ) < 1)
        refine ⟨n, ?_⟩
        calc (19 / 20 : ℝ) ^ n * |tgt - s.arcRadius|
              < (1 / 1000) / |tgt - s.arcRadius| * |tgt - s.arcRadius| :=
              mul_lt_mul_of_pos_right hn hg
          _ = 1 / 1000 := div_mul_cancel₀ _ (ne_of_gt hg)
    by_cases halive : ((tick env)^[n0] (arcRotateZoomPercent p s)).task
        = some (.zoomDrive tgt)
    · have hgap := zoom_gap env tgt n0 (arcRotateZoomPercent p s)
        (Or.inl (by rw [hzoom])) halive
      have hrad0 : (arcRotateZoomPercent p s).arcRadius = s.arcRadius := by
        rw [hzoom]
      rw [hrad0] at hgap
      have hnc : ¬1 / 1000
          < |tgt - ((tick env)^[n0] (arcRotateZoomPercent p s)).arcRadius| := by
        rw [hgap]
        exact not_lt.mpr (le_of_lt hn0)
      refine ⟨n0 + 1, ?_⟩
      rw [Function.iterate_succ_apply', tick_zoom_done env tgt _ halive hnc]
    · have hor := (zoomInv_iterate env _ _ _ htl htu n0 _ hinv0).2.2.2.2
      rcases hor with h | h
      · exact absurd h halive
      · exact ⟨n0, h⟩

/-- C9 witness: the zoom drive `p = 1/2` on the concrete camera with limits
`[0, 1]` and initial radius 1. -/
theorem claim_C9_zoom_witness :
    (∀ n : ℕ,
      camZoom.arcLower ≤ ((tick env0)^[n] (arcRotateZoomPercent (1 / 2) camZoom)).arcRadius ∧
      ((tick env0)^[n] (arcRotateZoomPercent (1 / 2) camZoom)).arcRadius ≤ camZoom.arcUpper) ∧
    (∃ n : ℕ, ((tick env0)^[n] (arcRotateZoomPercent (1 / 2) camZoom)).task = none) :=
  claim_C9_zoom env0 (1 / 2) camZoom rfl
    (show (0 : ℝ) ≤ 1 by norm_num)
    (show (1 : ℝ) ≤ 1 by norm_num)
    (by norm_num)
    (by norm_num)

/-- C5: every interpolation-loop body of every animated transition (both
loops execute exactly `transStep`) produces, whenever the blended
focus-to-position vector is nonzero and the interpolated up is not a scalar
multiple of it, a pose whose forward is a unit vector, whose up is a unit
vector, and whose forward and up are exactly orthogonal — at every `t`, not
just at the endpoints. -/
theorem claim_C5_orthonormal (sP dP sF dF sU dU : Vec3) (t : ℝ)
    (h1 : (transStep sP dP sF dF sU dU t).focus
        - (transStep sP dP sF dF sU dU t).position ≠ 0)
    (h2 : ∀ k : ℝ, Vec3.lerp sU dU t
        ≠ k • ((transStep sP dP sF dF sU dU t).focus
            - (transStep sP dP sF dF sU dU t).position)) :
    (transStep sP dP sF dF sU dU t).forward.norm = 1 ∧
    (transStep sP dP sF dF sU dU t).up.norm = 1 ∧
    (transStep sP dP sF dF sU dU t).forward.dot (transStep sP dP sF dF sU dU t).up = 0 := by
  have hfwd := transStep_forward sP dP sF dF sU dU t
  have hup := transStep_up sP dP sF dF sU dU t
  have hnorm1 : (transStep sP dP sF dF sU dU t).forward.norm = 1 := by
    rw [hfwd]
    exact Vec3.norm_normalize _ h1
  have hdot1 : (transStep sP dP sF dF sU dU t).forward.dot
      (transStep sP dP sF dF sU dU t).forward = 1 :=
    Vec3.dot_self_of_norm_one _ hnorm1
  have hpar : ∀ k : ℝ, Vec3.lerp sU dU t ≠ k • (transStep sP dP sF dF sU dU t).forward := by
    intro k hk
    rw [hfwd, Vec3.normalize_eq _ h1, Vec3.smul_smul_self] at hk
    exact h2 (k * ((transStep sP dP sF dF sU dU t).focus
      - (transStep sP dP sF dF sU dU t).position).norm⁻¹) hk
  have hw : ((transStep sP dP sF dF sU dU t).forward.cross (Vec3.lerp sU dU t)).cross
      (transStep sP dP sF dF sU dU t).forward ≠ 0 :=
    Vec3.cross_cross_ne_zero _ _ hdot1 hpar
  refine ⟨hnorm1, ?_, ?_⟩
  · rw [hup]
    exact Vec3.norm_normalize _ hw
  · rw [hup]
    exact Vec3.dot_normalize_right _ _ (Vec3.dot_cross_self _ _)

/-- C5 witness: the step at `t = 0` from the origin looking two units down
+Z with up +Y. -/
theorem claim_C5_orthonormal_witness :
    (transStep 0 0 ⟨0, 0, 2⟩ ⟨0, 0, 2⟩ ⟨0, 1, 0⟩ ⟨0, 1, 0⟩ 0).forward.norm = 1 ∧
    (transStep 0 0 ⟨0, 0, 2⟩ ⟨0, 0, 2⟩ ⟨0, 1, 0⟩ ⟨0, 1, 0⟩ 0).up.norm = 1 ∧
    (transStep 0 0 ⟨0, 0, 2⟩ ⟨0, 0, 2⟩ ⟨0, 1, 0⟩ ⟨0, 1, 0⟩ 0).forward.dot
      (transStep 0 0 ⟨0, 0, 2⟩ ⟨0, 0, 2⟩ ⟨0, 1, 0⟩ ⟨0, 1, 0⟩ 0).up = 0 := by
  have hv : (transStep (0 : Vec3) 0 ⟨0, 0, 2⟩ ⟨0, 0, 2⟩ ⟨0, 1, 0⟩ ⟨0, 1, 0⟩ 0).focus
      - (transStep (0 : Vec3) 0 ⟨0, 0, 2⟩ ⟨0, 0, 2⟩ ⟨0, 1, 0⟩ ⟨0, 1, 0⟩ 0).position
      = ⟨0, 0, 2⟩ := by
    rw [transStep_focus, transStep_position, Vec3.lerp_zero, Vec3.lerp_zero, Vec3.sub_def]
    norm_num [Vec3.mk.injEq]
  apply claim_C5_orthonormal
  · rw [hv]
    simp [Vec3.mk_eq_zero]
  · intro k
    rw [hv, Vec3.lerp_zero, Vec3.smul_def]
    simp [Vec3.mk.injEq]

/-- C4: calling any of the four public state operations on any state — in
particular on the state reached after any number `n` of ticks of a
previously started `animateToArcRotateState` transition — unconditionally
replaces the active coroutine, so the cancelled transition's remaining steps
can never run again; `setToMatchmoveState` in particular leaves the state
machine in Matchmove with the orbit camera's input detached and the
matchmove-follow coroutine installed, `setToArcRotateState` installs no
coroutine, and each animate operation installs exactly its own fresh
transition coroutine. -/
theorem claim_C4_cancellation (env : Env) (mm : MmState) (arc arc' : ArcState)
    (sec sec' : ℝ) (s : Cam) (n : ℕ) :
    ((setToMatchmoveState env mm ((tick env)^[n] (animateToArcRotateState arc sec s))).currentState
        = .matchmove) ∧
    ((setToMatchmoveState env mm ((tick env)^[n] (animateToArcRotateState arc sec s))).arcAttached
        = false) ∧
    ((setToMatchmoveState env mm ((tick env)^[n] (animateToArcRotateState arc sec s))).task
        = some (.mmFollow mm)) ∧
    ((setToArcRotateState env arc' ((tick env)^[n] (animateToArcRotateState arc sec s))).task
        = none) ∧
    ((animateToMatchmoveState mm sec' ((tick env)^[n] (animateToArcRotateState arc sec s))).task
        = some (.animMmStart mm sec')) ∧
    ((animateToArcRotateState arc' sec' ((tick env)^[n] (animateToArcRotateState arc sec s))).task
        = some (.animArcStart arc' sec')) :=
  ⟨rfl, rfl, rfl, rfl, rfl, rfl⟩

/-- C7 counterexample: with both radius limits supplied and
`upperRadiusLimit = 1 < 5 = lowerRadiusLimit`, `setToArcRotateState` does not
fail at all — it poses the orbit camera with the inconsistent limits exactly
as given, attaches its input and completes the switch to ArcRotate. -/
theorem claim_C7_counterexample :
    (setToArcRotateState env0 arcStBad cam0).arcUpper
        < (setToArcRotateState env0 arcStBad cam0).arcLower ∧
    (setToArcRotateState env0 arcStBad cam0).arcUpper = 1 ∧
    (setToArcRotateState env0 arcStBad cam0).arcLower = 5 ∧
    (setToArcRotateState env0 arcStBad cam0).currentState = .arcRotate ∧
    (setToArcRotateState env0 arcStBad cam0).arcAttached = true := by
  refine ⟨?_, ?_, ?_, rfl, rfl⟩ <;>
    simp [setToArcRotateState, poseArc, resolvedUpper, resolvedLower, arcStBad]

/-- C7 amended: `setToArcRotateState` performs no validation of the radius
limits: for every state — including every state whose defaulted limits
satisfy `upperRadiusLimit < lowerRadiusLimit` — it poses the orbit camera
with the defaulted limits exactly as resolved, attaches its input and
completes the switch to ArcRotate; no failure path exists. -/
theorem claim_C7_amended (env : Env) (st : ArcState) (s : Cam) :
    (setToArcRotateState env st s).arcUpper = resolvedUpper st ∧
    (setToArcRotateState env st s).arcLower = resolvedLower st ∧
    (setToArcRotateState env st s).arcTarget = st.target ∧
    (setToArcRotateState env st s).currentState = .arcRotate ∧
    (setToArcRotateState env st s).arcAttached = true ∧
    (setToArcRotateState env st s).task = none :=
  ⟨rfl, rfl, rfl, rfl, rfl, rfl⟩

/-- C10: assigning `enableMouseWheel := v` stores the flag and removes the
orbit camera's mouse-wheel input immediately for every `v`, including
`v = true`; after `enableMouseWheel := true` the wheel input comes back
through `setToArcRotateState` (whose `attachControl` re-attaches all inputs
and whose removal branch is skipped because the stored flag is true), while
`setToMatchmoveState` and the two animate calls leave it removed. -/
theorem claim_C10_wheel_removal (env : Env) (v : Bool) (s : Cam) (mm : MmState)
    (arc : ArcState) (sec : ℝ) :
    (setEnableMouseWheel v s).wheelRemoved = true ∧
    (setEnableMouseWheel v s).enableWheelFlag = v ∧
    (setToArcRotateState env arc (setEnableMouseWheel true s)).wheelRemoved = false ∧
    (setToArcRotateState env arc (setEnableMouseWheel true s)).arcAttached = true ∧
    (setToMatchmoveState env mm (setEnableMouseWheel true s)).wheelRemoved = true ∧
    (animateToMatchmoveState mm sec (setEnableMouseWheel true s)).wheelRemoved = true ∧
    (animateToArcRotateState arc sec (setEnableMouseWheel true s)).wheelRemoved = true :=
  ⟨rfl, rfl, rfl, rfl, rfl, rfl, rfl⟩

end Showroom
